import Mathlib

/-
Verification of the `invokable` library (src/index.ts).

The library exports one operation, `Invokable.create`, which takes an object
implementing a designated call slot (the key `"__call__"`, exported as
`Invokable.call`) and returns a function object that masquerades as the
original: same own property descriptors, shared prototype (for class
instances), and a `name` attribute whose writability depends on whether the
target declared its own `name`.

We embed the fragment of the JavaScript object model that the source code
exercises:

* objects live in a heap (`Heap := List Obj`), referenced by address;
* an object has an ordered own-property list of descriptors (data properties
  with `writable`/`enumerable`/`configurable` flags, or accessor properties
  holding getter/setter function references), an optional prototype address,
  and an optional callable code component;
* function bodies are defunctionalized into the small inductive `FnCode`,
  which is rich enough to express the method bodies appearing in the
  library's own tests (return a constant, read or write a `this` property,
  return an argument, a side-effecting getter), plus the two bodies the
  embedding itself needs: the masquerade body `f[call].apply(f, arguments)`
  built by `create`, and the `Function.prototype.apply` built-in;
* property reads (`target[k]`) are a full `Get`: they walk the prototype
  chain and invoke getters, so construction-time getter side effects are
  represented faithfully;
* the freshly created function carries its real own slots — a configurable
  `name`, a configurable `length`, and the non-configurable `prototype` data
  property pointing at a freshly allocated prototype object — and
  `Object.defineProperty` validates redefinition: an incompatible descriptor
  for a non-configurable property is a TypeError, exactly the error the
  source hits when a target carries an own `prototype` key;
* the masquerade body resolves `apply` as a property of the resolved
  call-tag value (`f[call].apply(...)`): a value that shadows `apply` with
  its own callable property has that shadow invoked (with a freshly
  allocated arguments object), and only the built-in
  `Function.prototype.apply` produces the ordinary call of the resolved
  function with the masquerade as receiver;
* evaluation is a fuel-indexed interpreter `exec` (structural recursion on
  fuel), so every definition is executable and all concrete runs reduce by
  `decide`.

Simplifications that remain (peripheral to the claims): primitive wrapper
prototypes carry no properties (reads on primitives other than null/undefined
yield `undefined`, as they do in real engines for every key this library
reads); the built-in `apply`, when handed an array-like, reads its elements
from own data properties without invoking getters; the `delete` operator is
modelled for configurable own properties only; assignment-style method bodies
(`setThis`, `bumpThenRet`) write default-flag data properties, matching their
use on default-flag slots.
-/

set_option maxHeartbeats 1000000

namespace Invokable

/-- Property keys are strings, as in the source (the call tag is a string). -/
abbrev Key := String

/-- JavaScript values: primitives and object references (addresses into the heap).
Functions, arrays and arguments objects are all objects in the heap. -/
inductive Value where
  | undef
  | null
  | bool (b : Bool)
  | num (n : Int)
  | str (s : String)
  | obj (a : Nat)
deriving DecidableEq

/-- A property descriptor: either a data property with its three attributes, or an
accessor property holding optional getter/setter function addresses. This mirrors
the descriptors produced by `Object.getOwnPropertyDescriptors` and consumed by
`Object.defineProperty` / `Object.defineProperties` in the source. -/
inductive PropDesc where
  | data (value : Value) (writable enumerable configurable : Bool)
  | accessor (getter setter : Option Nat) (enumerable configurable : Bool)
deriving DecidableEq

/-- Defunctionalized function bodies: enough to express the call-tag methods,
getters and setters that the library's documentation and tests exercise.
`masquerade self` is the body the source builds at src/index.ts:50-52:
`function() { return f[call].apply(f, arguments); }` with `f` captured as
`self`; `applyBuiltin` is `Function.prototype.apply`. -/
inductive FnCode where
  | ret (v : Value)
  | thisOwn (k : Key)
  | setThis (k : Key)
  | nthArg (i : Nat)
  | argCount
  | bumpThenRet (a : Nat) (k : Key) (v : Value)
  | masquerade (self : Nat)
  | applyBuiltin
deriving DecidableEq

/-- An object: ordered own properties, optional prototype address (`none` models a
null prototype), and an optional code component (present iff the object is callable). -/
structure Obj where
  props : List (Key × PropDesc)
  proto : Option Nat
  code : Option FnCode
deriving DecidableEq

/-- The heap: object records indexed by address. -/
abbrev Heap := List Obj

/-- Error outcomes. `missingCall` is the TypeError thrown at src/index.ts:38;
`getOfNil k` is the TypeError from reading property `k` of null/undefined;
`notCallable` is the TypeError from invoking a non-callable value;
`badDefine` is the TypeError from `Object.defineProperty` on an incompatible
redefinition of a non-configurable property; `badProto` is the TypeError from
`Object.setPrototypeOf` with a non-object, non-null argument; `badApplyArgs`
is the TypeError from `Function.prototype.apply` with a primitive argument
list; `outOfFuel` marks interpreter fuel exhaustion (not a JS error). -/
inductive JsErr where
  | missingCall
  | getOfNil (k : Key)
  | notCallable
  | badDefine
  | badProto
  | badApplyArgs
  | outOfFuel
deriving DecidableEq

deriving instance DecidableEq for Except

/-- The call tag: `export const call = '__call__'` (src/index.ts:18). -/
def call : Key := "__call__"

/-- First descriptor bound to `key` in an own-property list. -/
def lookupProp : List (Key × PropDesc) → Key → Option PropDesc
  | [], _ => none
  | (k, d) :: rest, key => if k = key then some d else lookupProp rest key

/-- Replace the binding of `key` in place, or append it (insertion order kept),
as ordinary property definition does once validation has passed. -/
def setProp : List (Key × PropDesc) → Key → PropDesc → List (Key × PropDesc)
  | [], key, d => [(key, d)]
  | (k, d0) :: rest, key, d =>
    if k = key then (k, d) :: rest else (k, d0) :: setProp rest key d

/-- Remove the binding of `key`: the `delete` operator on a configurable own
property. -/
def removeProp : List (Key × PropDesc) → Key → List (Key × PropDesc)
  | [], _ => []
  | (k, d) :: rest, key => if k = key then rest else (k, d) :: removeProp rest key

/-- Own-property descriptor of the object at address `a`, if any. -/
def ownDesc (h : Heap) (a : Nat) (k : Key) : Option PropDesc :=
  match h[a]? with
  | some o => lookupProp o.props k
  | none => none

/-- Configurable attribute of a descriptor. -/
def confOf : PropDesc → Bool
  | .data _ _ _ c => c
  | .accessor _ _ _ c => c

/-- Validation performed by `Object.defineProperty` when the property already
exists (ValidateAndApplyPropertyDescriptor, for the complete descriptors the
source uses): a configurable current property accepts anything; a
non-configurable one only accepts a descriptor that keeps configurable and
enumerable, keeps the kind, and — for data properties — either was writable,
or keeps non-writable with the same value; accessor pairs must be kept
identical. -/
def canRedefine : PropDesc → PropDesc → Bool
  | .data v w e c, .data v2 w2 e2 c2 =>
    if c then true
    else !c2 && (e2 == e) && (if w then true else !w2 && (v2 == v))
  | .data _ _ _ c, .accessor _ _ _ _ => c
  | .accessor _ _ _ c, .data _ _ _ _ => c
  | .accessor g st e c, .accessor g2 st2 e2 c2 =>
    if c then true
    else !c2 && (e2 == e) && (g2 == g) && (st2 == st)

/-- Update and validation performed by `Object.defineProperty(h[a], k, d)`:
defines a fresh property outright, redefines an existing one when
`canRedefine` allows it, and otherwise throws the redefinition TypeError —
the error the source reaches through `Object.defineProperties` when a target
descriptor collides with the fresh function's non-configurable own
`prototype` slot. -/
def defineOwn (h : Heap) (a : Nat) (k : Key) (d : PropDesc) : Except JsErr Heap :=
  match h[a]? with
  | some o =>
    match lookupProp o.props k with
    | none => .ok (h.set a { o with props := setProp o.props k d })
    | some cur =>
      if canRedefine cur d then
        .ok (h.set a { o with props := setProp o.props k d })
      else .error .badDefine
  | none => .ok h

/-- Iterated `defineOwn` at a fixed destination: the loop inside
`Object.defineProperties`, which applies descriptors in order and throws at
the first rejected one (earlier definitions stay applied). -/
def defineList (h : Heap) (dst : Nat) : List (Key × PropDesc) → Except JsErr Heap
  | [] => .ok h
  | (k, d) :: rest =>
    match defineOwn h dst k d with
    | .error e => .error e
    | .ok h2 => defineList h2 dst rest

/-- Replication step `Object.defineProperties(h[dst],
Object.getOwnPropertyDescriptors(h[src]))` (src/index.ts:70 and :93): snapshot
the source's own descriptors, then define them one by one on the destination. -/
def copyOwnProps (h : Heap) (src dst : Nat) : Except JsErr Heap :=
  match h[src]? with
  | some o => defineList h dst o.props
  | none => .ok h

/-- Overwrite the prototype slot of the object at `a` (the successful case of
`Object.setPrototypeOf` on an extensible object). -/
def setProto (h : Heap) (a : Nat) (p : Option Nat) : Heap :=
  match h[a]? with
  | some o => h.set a { o with proto := p }
  | none => h

/-- The `delete` operator applied to a configurable own property of the object
at `a`. -/
def deleteOwn (h : Heap) (a : Nat) (k : Key) : Heap :=
  match h[a]? with
  | some o => h.set a { o with props := removeProp o.props k }
  | none => h

/-- The `in` operator: `key in target` walks own properties and the prototype
chain, checking existence only — it never invokes getters and never checks
callability. Fuel bounds the chain walk; `create` supplies `h.length + 1`,
enough to traverse any acyclic chain in `h`. -/
def hasInChain : Nat → Heap → Nat → Key → Bool
  | 0, _, _, _ => false
  | fuel + 1, h, a, key =>
    match h[a]? with
    | none => false
    | some o =>
      (lookupProp o.props key).isSome ||
        match o.proto with
        | none => false
        | some p => hasInChain fuel h p key

/-- Value produced by the side-effecting-getter code `bumpThenRet`: increment a
numeric data slot (treating anything else as 0). -/
def bumpVal : Option PropDesc → Value
  | some (.data (.num n) _ _ _) => .num (n + 1)
  | _ => .num 1

/-- Is a value callable in the given heap (an object with a code component)? -/
def isCallableV (h : Heap) : Value → Bool
  | .obj a =>
    match h[a]? with
    | some o => o.code.isSome
    | none => false
  | _ => false

/-- Distinguished address of `Object.prototype` in well-formed heaps (the value
compared against at src/index.ts:54). -/
def objectProtoAddr : Nat := 0

/-- Distinguished address of `Function.prototype`: the default prototype of a
freshly created function; it carries the own `apply` property every ordinary
function inherits. -/
def functionProtoAddr : Nat := 1

/-- Distinguished address of the `Object` constructor function. -/
def objectCtorAddr : Nat := 2

/-- Distinguished address of the `Function.prototype.apply` built-in. -/
def applyBuiltinAddr : Nat := 3

/-- The fresh forwarding function allocated at src/index.ts:50-52: a function
object whose body is the masquerade closure over its own address, carrying the
standard function own slots — configurable `length` 0, configurable
non-writable `name` (the inferred name `f`), and the writable, non-enumerable,
NON-configurable `prototype` data property pointing at the freshly allocated
prototype object at the next address — and the default function prototype. -/
def freshFn (self : Nat) : Obj :=
  { props := [ ("length", .data (.num 0) false false true)
             , ("name", .data (.str "f") false false true)
             , ("prototype", .data (.obj (self + 1)) true false false) ]
    proto := some functionProtoAddr
    code := some (.masquerade self) }

/-- The fresh function's prototype object (allocated together with it), with
its back-pointing `constructor` property. -/
def freshFnProto (self : Nat) : Obj :=
  { props := [("constructor", .data (.obj self) true false true)]
    proto := some objectProtoAddr
    code := none }

/-- The arguments object a function call materializes: index properties
(writable, enumerable, configurable) and a writable, non-enumerable,
configurable `length`. -/
def argumentsObj (args : List Value) : Obj :=
  { props := (List.range args.length).map
      (fun i => (toString i, PropDesc.data (args.getD i .undef) true true true))
      ++ [("length", .data (.num (Int.ofNat args.length)) true false true)]
    proto := some objectProtoAddr
    code := none }

/-- Element list of an array-like object, read from its own `length` and index
data properties (the built-in `apply`'s CreateListFromArrayLike, restricted to
own data properties). -/
def elemsFromObj (h : Heap) (a : Nat) : List Value :=
  match h[a]? with
  | some o =>
    match lookupProp o.props "length" with
    | some (.data (.num (Int.ofNat n)) _ _ _) =>
      (List.range n).map (fun i =>
        match lookupProp o.props (toString i) with
        | some (.data v _ _ _) => v
        | _ => .undef)
    | _ => []
  | none => []

/-- Interpreter requests: run a function body, read a member (full `Get`),
walk a prototype chain carrying the original receiver, call a value, or
perform the method call `ap.call(thisArg := g, (self, arguments))` that the
masquerade body's `f[call].apply(f, arguments)` ends in. -/
inductive Req where
  | run (c : FnCode) (thisv : Value) (args : List Value)
  | member (v : Value) (k : Key)
  | chain (a : Nat) (recv : Value) (k : Key)
  | callv (v : Value) (thisv : Value) (args : List Value)
  | applyCall (ap g : Value) (self : Nat) (args : List Value)

/-- Fuel-indexed interpreter for the embedded object model. Every mutual
activity (`Get` invoking a getter, the masquerade body re-resolving `f[call]`,
resolving its `apply` member and dispatching through it, calls running bodies)
decrements the fuel, so the recursion is structural and all runs reduce
definitionally. The `applyCall` request dispatches the resolved `apply`: the
built-in produces the ordinary call of `g` with the masquerade as receiver
and the arguments forwarded; any other callable `apply` (a shadow) is run
with `g` as receiver and a freshly allocated arguments object, exactly as the
source's member call does. -/
def exec : Nat → Heap → Req → Except JsErr (Heap × Value)
  | 0, _, _ => .error .outOfFuel
  | _ + 1, h, .run (.ret v) _ _ => .ok (h, v)
  | _ + 1, h, .run (.thisOwn k) thisv _ =>
    match thisv with
    | .obj a =>
      match h[a]? with
      | some o =>
        match lookupProp o.props k with
        | some (.data v _ _ _) => .ok (h, v)
        | _ => .ok (h, .undef)
      | none => .ok (h, .undef)
    | _ => .ok (h, .undef)
  | _ + 1, h, .run (.setThis k) thisv args =>
    match thisv with
    | .obj a =>
      match h[a]? with
      | some o =>
        .ok (h.set a { o with props := setProp o.props k (.data (args.headD .undef) true true true) }, .undef)
      | none => .ok (h, .undef)
    | _ => .ok (h, .undef)
  | _ + 1, h, .run (.nthArg i) _ args => .ok (h, args.getD i .undef)
  | _ + 1, h, .run .argCount _ args => .ok (h, .num args.length)
  | _ + 1, h, .run (.bumpThenRet a k v) _ _ =>
    match h[a]? with
    | some o =>
      .ok (h.set a { o with props := setProp o.props k (.data (bumpVal (lookupProp o.props k)) true true true) }, v)
    | none => .ok (h, v)
  | fuel + 1, h, .run (.masquerade self) _ args =>
    match exec fuel h (.member (.obj self) call) with
    | .error e => .error e
    | .ok (h1, g) =>
      match exec fuel h1 (.member g "apply") with
      | .error e => .error e
      | .ok (h2, ap) => exec fuel h2 (.applyCall ap g self args)
  | fuel + 1, h, .run .applyBuiltin thisv args =>
    if isCallableV h thisv = false then .error .notCallable
    else
      match args.getD 1 .undef with
      | .undef => exec fuel h (.callv thisv (args.getD 0 .undef) [])
      | .null => exec fuel h (.callv thisv (args.getD 0 .undef) [])
      | .obj a => exec fuel h (.callv thisv (args.getD 0 .undef) (elemsFromObj h a))
      | _ => .error .badApplyArgs
  | fuel + 1, h, .member v k =>
    match v with
    | .null => .error (.getOfNil k)
    | .undef => .error (.getOfNil k)
    | .obj a => exec fuel h (.chain a (.obj a) k)
    | _ => .ok (h, .undef)
  | fuel + 1, h, .chain a recv k =>
    match h[a]? with
    | none => .ok (h, .undef)
    | some o =>
      match lookupProp o.props k with
      | some (.data v _ _ _) => .ok (h, v)
      | some (.accessor g _ _ _) =>
        match g with
        | none => .ok (h, .undef)
        | some ga =>
          match h[ga]? with
          | some go =>
            match go.code with
            | some c => exec fuel h (.run c recv [])
            | none => .error .notCallable
          | none => .error .notCallable
      | none =>
        match o.proto with
        | none => .ok (h, .undef)
        | some p => exec fuel h (.chain p recv k)
  | fuel + 1, h, .callv v thisv args =>
    match v with
    | .obj a =>
      match h[a]? with
      | some o =>
        match o.code with
        | some c => exec fuel h (.run c thisv args)
        | none => .error .notCallable
      | none => .error .notCallable
    | _ => .error .notCallable
  | fuel + 1, h, .applyCall ap g self args =>
    match ap with
    | .obj a =>
      match h[a]? with
      | some o =>
        match o.code with
        | some .applyBuiltin => exec fuel h (.callv g (.obj self) args)
        | some c =>
          exec fuel (h ++ [argumentsObj args]) (.run c g [.obj self, .obj h.length])
        | none => .error .notCallable
      | none => .error .notCallable
    | _ => .error .notCallable

/-- Run a function body. -/
def runFn (fuel : Nat) (h : Heap) (c : FnCode) (thisv : Value) (args : List Value) :
    Except JsErr (Heap × Value) :=
  exec fuel h (.run c thisv args)

/-- Full `Get`: `v[k]`, walking the prototype chain and invoking getters; throws
a TypeError-kind error on null/undefined, yields `undefined` on other primitives
(their wrapper prototypes carry none of the keys the source reads). -/
def getMember (fuel : Nat) (h : Heap) (v : Value) (k : Key) :
    Except JsErr (Heap × Value) :=
  exec fuel h (.member v k)

/-- Call a value as a function with an explicit receiver. -/
def callValue (fuel : Nat) (h : Heap) (v thisv : Value) (args : List Value) :
    Except JsErr (Heap × Value) :=
  exec fuel h (.callv v thisv args)

/-- Invoke the object at `fa` as a function, `fa(...args)` (receiver `undefined`,
as for a plain call of a strict function). -/
def invoke (fuel : Nat) (h : Heap) (fa : Nat) (args : List Value) :
    Except JsErr (Heap × Value) :=
  callValue fuel h (.obj fa) .undef args

/-- Shallow embedding of `Invokable.create` (src/index.ts:34-105), step by step
in source order:
1. `if (!(call in target)) throw new TypeError(...)` — the `in` check;
2. allocate the forwarding function `f` together with its prototype object;
3. if `Object.getPrototypeOf(target) === Object.prototype` (plain branch):
   `hasName = 'name' in target`; read `target[call].name` (a full Get, then a
   `.name` read that throws on null/undefined); define `name` on `f` with
   `writable`/`enumerable` both `hasName`, configurable; copy all own
   descriptors of `target` onto `f` (each a validated define, throwing on an
   incompatible redefinition of `f`'s non-configurable own `prototype`);
   return `f`;
4. otherwise (class branch): read `target.constructor` (a full Get); compute
   `hasOwnProperty(target, 'name')`; read `constructor.name`; define `name`
   on `f`; copy all own descriptors; read `constructor.prototype` and
   `Object.setPrototypeOf(f, ...)` it (TypeError on a primitive); return `f`.
`fuel` bounds the embedded property reads. -/
def create (fuel : Nat) (h : Heap) (ta : Nat) : Except JsErr (Heap × Nat) :=
  if hasInChain (h.length + 1) h ta call = false then .error .missingCall
  else
    match h[ta]? with
    | none => .error .missingCall
    | some tobj =>
      let fa := h.length
      let h1 := h ++ [freshFn fa, freshFnProto fa]
      if tobj.proto = some objectProtoAddr then
        let hasName := hasInChain (h1.length + 1) h1 ta "name"
        match getMember fuel h1 (.obj ta) call with
        | .error e => .error e
        | .ok (h2, cv) =>
          match getMember fuel h2 cv "name" with
          | .error e => .error e
          | .ok (h3, nm) =>
            match defineOwn h3 fa "name" (.data nm hasName hasName true) with
            | .error e => .error e
            | .ok h4 =>
              match copyOwnProps h4 ta fa with
              | .error e => .error e
              | .ok h5 => .ok (h5, fa)
      else
        match getMember fuel h1 (.obj ta) "constructor" with
        | .error e => .error e
        | .ok (h2, ctor) =>
          let hasOwnName := (ownDesc h2 ta "name").isSome
          match getMember fuel h2 ctor "name" with
          | .error e => .error e
          | .ok (h3, nm) =>
            match defineOwn h3 fa "name" (.data nm hasOwnName hasOwnName true) with
            | .error e => .error e
            | .ok h4 =>
              match copyOwnProps h4 ta fa with
              | .error e => .error e
              | .ok h5 =>
                match getMember fuel h5 ctor "prototype" with
                | .error e => .error e
                | .ok (h6, pv) =>
                  match pv with
                  | .obj pa => .ok (setProto h6 fa (some pa), fa)
                  | .null => .ok (setProto h6 fa none, fa)
                  | _ => .error .badProto

/-- Success test for an `Except` outcome. -/
def exceptOk {α : Type} : Except JsErr α → Bool
  | .ok _ => true
  | .error _ => false

/-- Modelled from the SPEC's words, for refinement comparison with the code's
entry check (never used by `create` itself): the spec's conformance condition
"target must resolve the call tag to a callable value, either as an own
property or via its prototype chain". Resolution is a full `Get` of the call
tag; the condition holds when the resolved value is callable. -/
def specResolvesCall (fuel : Nat) (h : Heap) (ta : Nat) : Bool :=
  match getMember fuel h (.obj ta) call with
  | .ok (h2, v) => isCallableV h2 v
  | .error _ => false

/-- Heap evolution invariant: a successful interpreter run never shrinks the
heap and never changes a pre-existing object's prototype or code component
(the embedded function bodies only touch own-property lists, and calls only
allocate fresh arguments objects). -/
def stable (h h2 : Heap) : Prop :=
  h.length ≤ h2.length ∧
    ∀ a : Nat, a < h.length →
      (h2[a]?).map (fun o => (o.proto, o.code)) =
        (h[a]?).map (fun o => (o.proto, o.code))

/-- Code component of the object at address `a`. -/
def codeAt (h : Heap) (a : Nat) : Option FnCode :=
  (h[a]?).bind (fun o => o.code)

/-- Prototype slot of the object at address `a` (`Object.getPrototypeOf`). -/
def protoAt (h : Heap) (a : Nat) : Option (Option Nat) :=
  (h[a]?).map (fun o => o.proto)

/-- Own-property keys of the object at address `a`, in order. -/
def ownKeys (h : Heap) (a : Nat) : List Key :=
  match h[a]? with
  | some o => o.props.map Prod.fst
  | none => []

/-- Heap produced by a successful `create` (empty heap on failure; used only to
name concrete scenario outcomes). -/
def createdHeap (fuel : Nat) (h : Heap) (ta : Nat) : Heap :=
  match create fuel h ta with
  | .ok (hh, _) => hh
  | .error _ => []

/-- Address returned by a successful `create` (0 on failure). -/
def createdAddr (fuel : Nat) (h : Heap) (ta : Nat) : Nat :=
  match create fuel h ta with
  | .ok (_, fa) => fa
  | .error _ => 0

/-- Heap after a successful `Object.defineProperty` (unchanged heap on a
rejected define; used only to name concrete scenario outcomes). -/
def definedHeap (h : Heap) (a : Nat) (k : Key) (d : PropDesc) : Heap :=
  match defineOwn h a k d with
  | .ok h2 => h2
  | .error _ => h

/-- Base heap shared by the concrete scenarios: address 0 is `Object.prototype`
(with its `constructor` property pointing at `Object`), address 1 is
`Function.prototype` (with its own `apply` property pointing at the built-in),
address 2 is the `Object` constructor function (whose `prototype` property is
`Object.prototype`), address 3 is the `Function.prototype.apply` built-in. -/
def baseHeap : Heap :=
  [ { props := [("constructor", .data (.obj objectCtorAddr) true false true)]
      proto := none
      code := none }
  , { props := [("apply", .data (.obj applyBuiltinAddr) true false true)]
      proto := some objectProtoAddr
      code := some (.ret .undef) }
  , { props := [ ("name", .data (.str "Object") false false true)
               , ("prototype", .data (.obj objectProtoAddr) false false false) ]
      proto := some functionProtoAddr
      code := some (.ret .undef) }
  , { props := [ ("name", .data (.str "apply") false false true)
               , ("length", .data (.num 2) false false true) ]
      proto := some functionProtoAddr
      code := some .applyBuiltin } ]

/-- Scenario: a standard conforming plain object `{ __call__: fn, value: 3 }`
(target at address 4); the call-tag function at address 5 is named `callme`
and its body returns `this.value`. Its masquerade is created at address 6
(with the fresh function's prototype object at 7). -/
def w3Heap : Heap := baseHeap ++
  [ { props := [ ("__call__", .data (.obj 5) true true true)
               , ("value", .data (.num 3) true true true) ]
      proto := some objectProtoAddr
      code := none }
  , { props := [("name", .data (.str "callme") false false true)]
      proto := some functionProtoAddr
      code := some (.thisOwn "value") } ]

/-- Scenario: a standard class instance. Address 4 is `Rect.prototype`
(carrying `constructor` and the `__call__` method), address 5 the class
function `Rect`, address 6 the method (returns 99), address 7 the instance
with own field `w`. Its masquerade is created at address 8. -/
def w4Heap : Heap := baseHeap ++
  [ { props := [ ("constructor", .data (.obj 5) true false true)
               , ("__call__", .data (.obj 6) true false true) ]
      proto := some objectProtoAddr
      code := none }
  , { props := [ ("name", .data (.str "Rect") false false true)
               , ("prototype", .data (.obj 4) false false false) ]
      proto := some functionProtoAddr
      code := some (.ret .undef) }
  , { props := [("name", .data (.str "callm") false false true)]
      proto := some functionProtoAddr
      code := some (.ret (.num 99)) }
  , { props := [("w", .data (.num 2) true true true)]
      proto := some 4
      code := none } ]

/-- Scenario: a plain object with no call tag at all (non-conforming). -/
def w10Heap : Heap := baseHeap ++
  [ { props := [], proto := some objectProtoAddr, code := none } ]

/-- Scenario: a plain object whose `__call__` own property holds the
non-callable value 42 (target at address 4). -/
def cx1Heap : Heap := baseHeap ++
  [ { props := [("__call__", .data (.num 42) true true true)]
      proto := some objectProtoAddr
      code := none } ]

/-- Scenario: a conforming target (address 5) whose prototype is the plain
object `q` at address 4 (not `Object.prototype`); `q` carries no
`constructor`, so `target.constructor` resolves through `Object.prototype`
to the `Object` function, whose `prototype` property is `Object.prototype`.
The target's call tag is the function at address 6. -/
def cx5Heap : Heap := baseHeap ++
  [ { props := [], proto := some objectProtoAddr, code := none }
  , { props := [("__call__", .data (.obj 6) true true true)]
      proto := some 4
      code := none }
  , { props := [("name", .data (.str "g") false false true)]
      proto := some functionProtoAddr
      code := some (.ret (.num 5)) } ]

/-- Scenario: a plain target (address 6) whose `__call__` own property is an
accessor; its getter (address 5) increments the counter property `n` of the
pre-existing cell object at address 4 and returns 0. -/
def cx4Heap : Heap := baseHeap ++
  [ { props := [("n", .data (.num 0) true true true)]
      proto := some objectProtoAddr
      code := none }
  , { props := [("name", .data (.str "g") false false true)]
      proto := some functionProtoAddr
      code := some (.bumpThenRet 4 "n" (.num 0)) }
  , { props := [("__call__", .accessor (some 5) none true true)]
      proto := some objectProtoAddr
      code := none } ]

/-- Scenario: a plain target (address 5) whose `__call__` getter (address 4)
increments the target's own counter property `n`. -/
def cx9Heap : Heap := baseHeap ++
  [ { props := [("name", .data (.str "g") false false true)]
      proto := some functionProtoAddr
      code := some (.bumpThenRet 5 "n" (.num 0)) }
  , { props := [ ("n", .data (.num 0) true true true)
               , ("__call__", .accessor (some 4) none true true) ]
      proto := some objectProtoAddr
      code := none } ]

/-- Scenario: a plain target (address 4) whose `__call__` own property is a
DATA property holding the function at address 5, but that function's own
`name` (configurable, hence legally redefinable) has been turned into an
accessor whose getter (address 6) writes the target's property `z`; the
default-name read `target[call].name` invokes it during construction. -/
def cx9bHeap : Heap := baseHeap ++
  [ { props := [("__call__", .data (.obj 5) true true true)]
      proto := some objectProtoAddr
      code := none }
  , { props := [("name", .accessor (some 6) none false true)]
      proto := some functionProtoAddr
      code := some (.ret (.num 1)) }
  , { props := []
      proto := some functionProtoAddr
      code := some (.bumpThenRet 4 "z" (.num 0)) } ]

/-- Scenario: a conforming plain target (address 4) declaring an own `name`
data property with all attribute flags `false`. -/
def cx6Heap : Heap := baseHeap ++
  [ { props := [ ("__call__", .data (.obj 5) true true true)
               , ("name", .data (.str "x") false false false) ]
      proto := some objectProtoAddr
      code := none }
  , { props := [("name", .data (.str "cf") false false true)]
      proto := some functionProtoAddr
      code := some (.ret .undef) } ]

/-- Scenario: a conforming plain target (address 4) declaring an own `name`
data property with the ordinary literal-property flags (all `true`). -/
def w6Heap : Heap := baseHeap ++
  [ { props := [ ("__call__", .data (.obj 5) true true true)
               , ("name", .data (.str "mine") true true true) ]
      proto := some objectProtoAddr
      code := none }
  , { props := [("name", .data (.str "cf") false false true)]
      proto := some functionProtoAddr
      code := some (.ret .undef) } ]

/-- Scenario: a class instance (address 7) declaring an own `name` data
property (value `inst`, writable, non-enumerable, non-configurable), over the
same class layout as `w4Heap`. -/
def w6cHeap : Heap := baseHeap ++
  [ { props := [ ("constructor", .data (.obj 5) true false true)
               , ("__call__", .data (.obj 6) true false true) ]
      proto := some objectProtoAddr
      code := none }
  , { props := [ ("name", .data (.str "Rect") false false true)
               , ("prototype", .data (.obj 4) false false false) ]
      proto := some functionProtoAddr
      code := some (.ret .undef) }
  , { props := [("name", .data (.str "callm") false false true)]
      proto := some functionProtoAddr
      code := some (.ret (.num 99)) }
  , { props := [ ("w", .data (.num 2) true true true)
               , ("name", .data (.str "inst") true false false) ]
      proto := some 4
      code := none } ]

/-- Scenario: a conforming plain target (address 4) whose call tag initially
points at the function at address 5 (returns 1); address 6 holds a second
function (returns 2) used as a runtime replacement. Masquerade at 7. -/
def c3Heap : Heap := baseHeap ++
  [ { props := [("__call__", .data (.obj 5) true true true)]
      proto := some objectProtoAddr
      code := none }
  , { props := [("name", .data (.str "a") false false true)]
      proto := some functionProtoAddr
      code := some (.ret (.num 1)) }
  , { props := [("name", .data (.str "b") false false true)]
      proto := some functionProtoAddr
      code := some (.ret (.num 2)) } ]

/-- Scenario: like `w3Heap`, but the call-tag function (address 5, body returns
1) carries an own `apply` data property pointing at the function at address 6
(body returns 5), shadowing the inherited built-in. Masquerade at 7. -/
def c2SHeap : Heap := baseHeap ++
  [ { props := [("__call__", .data (.obj 5) true true true)]
      proto := some objectProtoAddr
      code := none }
  , { props := [ ("name", .data (.str "g") false false true)
               , ("apply", .data (.obj 6) true true true) ]
      proto := some functionProtoAddr
      code := some (.ret (.num 1)) }
  , { props := [("name", .data (.str "shadow") false false true)]
      proto := some functionProtoAddr
      code := some (.ret (.num 5)) } ]

/-- Scenario: a conforming plain target (address 4, call tag at 5 returning 1);
address 6 holds a replacement function (body returns 2) that carries an own
`apply` shadow pointing at address 7 (returns 5). Masquerade at 8. -/
def c3SHeap : Heap := baseHeap ++
  [ { props := [("__call__", .data (.obj 5) true true true)]
      proto := some objectProtoAddr
      code := none }
  , { props := [("name", .data (.str "a") false false true)]
      proto := some functionProtoAddr
      code := some (.ret (.num 1)) }
  , { props := [ ("name", .data (.str "b") false false true)
               , ("apply", .data (.obj 7) true true true) ]
      proto := some functionProtoAddr
      code := some (.ret (.num 2)) }
  , { props := [("name", .data (.str "shadow") false false true)]
      proto := some functionProtoAddr
      code := some (.ret (.num 5)) } ]

/-- Scenario: a conforming plain target (address 4, call tag at 5); address 6
holds a NON-callable plain object whose own `apply` points at the callable
function at address 7 (body returns 5). Masquerade at 8. -/
def c10SHeap : Heap := baseHeap ++
  [ { props := [("__call__", .data (.obj 5) true true true)]
      proto := some objectProtoAddr
      code := none }
  , { props := [("name", .data (.str "a") false false true)]
      proto := some functionProtoAddr
      code := some (.ret (.num 1)) }
  , { props := [("apply", .data (.obj 7) true true true)]
      proto := some objectProtoAddr
      code := none }
  , { props := [("name", .data (.str "shadow") false false true)]
      proto := some functionProtoAddr
      code := some (.ret (.num 5)) } ]

/-- The masquerade of `w3Heap`, its own `value` property then set to 7 (the
receiver-binding scenario of the spec). -/
def c2Heap : Heap :=
  definedHeap (createdHeap 9 w3Heap 4) 6 "value" (.data (.num 7) true true true)

/-- The masquerade of `c3Heap`, its own call-tag slot then replaced by the
function at address 6. -/
def c3OwnHeap : Heap :=
  definedHeap (createdHeap 9 c3Heap 4) 7 call (.data (.obj 6) true true true)

/-- The masquerade of `w4Heap` (which resolves the call tag through the shared
prototype at address 4), after the prototype's call-tag slot is replaced by
the class function (returns `undefined`) at address 5. -/
def c3ProtoHeap : Heap :=
  definedHeap (createdHeap 9 w4Heap 7) 4 call (.data (.obj 5) true false true)

/-- The masquerade of `c3SHeap`, its own call-tag slot then replaced by the
`apply`-shadowing function at address 6. -/
def c3SOwnHeap : Heap :=
  definedHeap (createdHeap 9 c3SHeap 4) 8 call (.data (.obj 6) true true true)

/-- The masquerade of `c10SHeap`, its own call-tag slot then replaced by the
non-callable object (with callable own `apply`) at address 6. -/
def c10SRepHeap : Heap :=
  definedHeap (createdHeap 9 c10SHeap 4) 8 call (.data (.obj 6) true true true)

/-- The masquerade of `w3Heap` after its own call-tag slot is deleted (its
prototype chain — `Function.prototype`, `Object.prototype` — carries no call
tag either). -/
def c10Heap : Heap := deleteOwn (createdHeap 9 w3Heap 4) 6 call

/-- The masquerade of `w3Heap` after its own call-tag slot is overwritten with
the non-callable number 42 (whose `apply` read yields `undefined`). -/
def c10NumHeap : Heap :=
  definedHeap (createdHeap 9 w3Heap 4) 6 call (.data (.num 42) true true true)

/-- Cumulative effect on an own-property list of defining a list of descriptors in
order (the pure shadow of a successful `defineList`). -/
def applyDefs (ps : List (Key × PropDesc)) : List (Key × PropDesc) → List (Key × PropDesc)
  | [] => ps
  | (k, d) :: rest => applyDefs (setProp ps k d) rest

/-- Validation precondition under which `defineOwn` always succeeds for any
complete descriptor: the key is absent or its current descriptor is
configurable. -/
def confOrAbsent (ps : List (Key × PropDesc)) (k : Key) : Bool :=
  match lookupProp ps k with
  | none => true
  | some cur => confOf cur

theorem lookupProp_setProp_self (ps : List (Key × PropDesc)) (k : Key) (d : PropDesc) :
    lookupProp (setProp ps k d) k = some d := by
  induction ps with
  | nil => simp [setProp, lookupProp]
  | cons hd tl ih =>
    obtain ⟨k0, d0⟩ := hd
    by_cases hk : k0 = k
    · simp [setProp, lookupProp, hk]
    · simp [setProp, lookupProp, hk, ih]

theorem lookupProp_setProp_ne (ps : List (Key × PropDesc)) (k k2 : Key) (d : PropDesc)
    (hne : k2 ≠ k) : lookupProp (setProp ps k d) k2 = lookupProp ps k2 := by
  induction ps with
  | nil => simp [setProp, lookupProp, Ne.symm hne]
  | cons hd tl ih =>
    obtain ⟨k0, d0⟩ := hd
    rw [setProp]
    by_cases hk : k0 = k
    · rw [if_pos hk]
      subst hk
      simp [lookupProp, Ne.symm hne]
    · rw [if_neg hk]
      simp only [lookupProp]
      rw [ih]

theorem lookupProp_none_of_not_mem (ps : List (Key × PropDesc)) (k : Key)
    (hk : k ∉ ps.map Prod.fst) : lookupProp ps k = none := by
  induction ps with
  | nil => simp [lookupProp]
  | cons hd tl ih =>
    obtain ⟨k0, d0⟩ := hd
    simp only [List.map_cons, List.mem_cons, not_or] at hk
    simp [lookupProp, Ne.symm hk.1, ih hk.2]

theorem not_mem_of_lookupProp_none (ps : List (Key × PropDesc)) (k : Key)
    (hk : lookupProp ps k = none) : k ∉ ps.map Prod.fst := by
  induction ps with
  | nil => simp
  | cons hd tl ih =>
    obtain ⟨k0, d0⟩ := hd
    simp only [lookupProp] at hk
    by_cases h0 : k0 = k
    · simp [h0] at hk
    · simp only [h0, if_false] at hk
      simp [ih hk, Ne.symm h0, h0]

theorem lookupProp_applyDefs_not_mem (L ps : List (Key × PropDesc)) (k : Key)
    (hk : k ∉ L.map Prod.fst) : lookupProp (applyDefs ps L) k = lookupProp ps k := by
  induction L generalizing ps with
  | nil => simp [applyDefs]
  | cons hd tl ih =>
    obtain ⟨k0, d0⟩ := hd
    simp only [List.map_cons, List.mem_cons, not_or] at hk
    rw [applyDefs, ih _ hk.2, lookupProp_setProp_ne _ _ _ _ hk.1]

theorem lookupProp_applyDefs_mem (L : List (Key × PropDesc)) (k : Key) (d : PropDesc)
    (hnd : (L.map Prod.fst).Nodup) (hk : lookupProp L k = some d) :
    ∀ ps, lookupProp (applyDefs ps L) k = some d := by
  revert hnd hk
  induction L with
  | nil =>
    intro hnd hk
    simp [lookupProp] at hk
  | cons hd tl ih =>
    intro hnd hk ps
    obtain ⟨k0, d0⟩ := hd
    simp only [List.map_cons, List.nodup_cons] at hnd
    rw [applyDefs]
    by_cases h0 : k0 = k
    · subst h0
      rw [lookupProp, if_pos rfl, Option.some.injEq] at hk
      subst hk
      rw [lookupProp_applyDefs_not_mem _ _ _ hnd.1, lookupProp_setProp_self]
    · rw [lookupProp, if_neg h0] at hk
      exact ih hnd.2 hk _

theorem heap_lt_of_getElem (h : Heap) (a : Nat) (o : Obj) (ha : h[a]? = some o) :
    a < h.length := by
  rcases List.getElem?_eq_some_iff.mp ha with ⟨hlt, _⟩
  exact hlt

theorem confOrAbsent_setProp_ne (ps : List (Key × PropDesc)) (k k2 : Key)
    (d : PropDesc) (hne : k2 ≠ k) :
    confOrAbsent (setProp ps k d) k2 = confOrAbsent ps k2 := by
  rw [confOrAbsent, confOrAbsent, lookupProp_setProp_ne _ _ _ _ hne]

theorem canRedefine_conf (cur d : PropDesc) (hc : confOf cur = true) :
    canRedefine cur d = true := by
  cases cur with
  | data v w e c =>
    rw [confOf] at hc
    cases d with
    | data v2 w2 e2 c2 => simp [canRedefine, hc]
    | accessor g2 s2 e2 c2 => exact hc
  | accessor g s e c =>
    rw [confOf] at hc
    cases d with
    | data v2 w2 e2 c2 => exact hc
    | accessor g2 s2 e2 c2 => simp [canRedefine, hc]

theorem heap_some_inj {h : Heap} {a : Nat} {o1 o2 : Obj}
    (h1 : h[a]? = some o1) (h2 : h[a]? = some o2) : o1 = o2 := by
  rw [h1] at h2
  exact Option.some.inj h2

theorem defineOwn_ok_shape (h : Heap) (b : Nat) (k : Key) (d : PropDesc) (o : Obj)
    (hb : h[b]? = some o) (hok : confOrAbsent o.props k = true) :
    defineOwn h b k d = .ok (h.set b { o with props := setProp o.props k d }) := by
  cases hcur : lookupProp o.props k with
  | none => simp only [defineOwn, hb, hcur]
  | some cur =>
    rw [confOrAbsent, hcur] at hok
    have hcan := canRedefine_conf cur d hok
    simp [defineOwn, hb, hcur, hcan]

theorem defineOwn_ok_cases {h h2 : Heap} {b : Nat} {k : Key} {d : PropDesc}
    (hx : defineOwn h b k d = .ok h2) :
    h2 = h ∨ ∃ o, h[b]? = some o ∧ h2 = h.set b { o with props := setProp o.props k d } := by
  cases hb : h[b]? with
  | none =>
    simp only [defineOwn, hb] at hx
    cases hx
    exact Or.inl rfl
  | some o =>
    simp only [defineOwn, hb] at hx
    refine Or.inr ⟨o, rfl, ?_⟩
    split at hx
    · cases hx
      rfl
    · split at hx
      · cases hx
        rfl
      · exact Except.noConfusion hx

theorem defineOwn_error_badDefine {h : Heap} {b : Nat} {k : Key} {d : PropDesc}
    {e : JsErr} (hx : defineOwn h b k d = .error e) : e = .badDefine := by
  cases hb : h[b]? with
  | none =>
    simp only [defineOwn, hb] at hx
    exact Except.noConfusion hx
  | some o =>
    simp only [defineOwn, hb] at hx
    split at hx
    · exact Except.noConfusion hx
    · split at hx
      · exact Except.noConfusion hx
      · cases hx
        rfl

theorem defineOwn_ok_length {h h2 : Heap} {b : Nat} {k : Key} {d : PropDesc}
    (hx : defineOwn h b k d = .ok h2) : h2.length = h.length := by
  rcases defineOwn_ok_cases hx with he | ⟨o, hb, he⟩
  · rw [he]
  · rw [he]
    simp

theorem defineOwn_ok_get_ne {h h2 : Heap} {b : Nat} {k : Key} {d : PropDesc}
    (hx : defineOwn h b k d = .ok h2) (a : Nat) (hne : a ≠ b) : h2[a]? = h[a]? := by
  rcases defineOwn_ok_cases hx with he | ⟨o, hb, he⟩
  · rw [he]
  · rw [he]
    exact List.getElem?_set_ne (Ne.symm hne)

theorem defineOwn_ok_get_self {h h2 : Heap} {b : Nat} {k : Key} {d : PropDesc} {o : Obj}
    (hx : defineOwn h b k d = .ok h2) (hb : h[b]? = some o) :
    h2[b]? = some { o with props := setProp o.props k d } := by
  rcases defineOwn_ok_cases hx with he | ⟨o2, hb2, he⟩
  · subst he
    simp only [defineOwn, hb] at hx
    split at hx
    · injection hx with hy
      rw [← hy]
      exact List.getElem?_set_self (heap_lt_of_getElem _ b o hb)
    · split at hx
      · injection hx with hy
        rw [← hy]
        exact List.getElem?_set_self (heap_lt_of_getElem _ b o hb)
      · exact Except.noConfusion hx
  · cases heap_some_inj hb2 hb
    rw [he]
    exact List.getElem?_set_self (heap_lt_of_getElem h b o hb)

theorem defineList_ok_length {h h2 : Heap} {dst : Nat} {L : List (Key × PropDesc)}
    (hx : defineList h dst L = .ok h2) : h2.length = h.length := by
  induction L generalizing h with
  | nil =>
    cases hx
    rfl
  | cons hd tl ih =>
    obtain ⟨k, d⟩ := hd
    rw [defineList] at hx
    split at hx
    · exact Except.noConfusion hx
    · rename_i h1 heq
      exact (ih hx).trans (defineOwn_ok_length heq)

theorem defineList_ok_get_ne {h h2 : Heap} {dst : Nat} {L : List (Key × PropDesc)}
    (hx : defineList h dst L = .ok h2) (a : Nat) (hne : a ≠ dst) : h2[a]? = h[a]? := by
  induction L generalizing h with
  | nil =>
    cases hx
    rfl
  | cons hd tl ih =>
    obtain ⟨k, d⟩ := hd
    rw [defineList] at hx
    split at hx
    · exact Except.noConfusion hx
    · rename_i h1 heq
      exact (ih hx).trans (defineOwn_ok_get_ne heq a hne)

theorem defineList_error_badDefine {h : Heap} {dst : Nat} {L : List (Key × PropDesc)}
    {e : JsErr} (hx : defineList h dst L = .error e) : e = .badDefine := by
  induction L generalizing h with
  | nil => exact Except.noConfusion hx
  | cons hd tl ih =>
    obtain ⟨k, d⟩ := hd
    rw [defineList] at hx
    split at hx
    · rename_i e0 heq
      cases hx
      exact defineOwn_error_badDefine heq
    · exact ih hx

theorem defineList_ok_set (h : Heap) (dst : Nat) (hlt : dst < h.length)
    (L : List (Key × PropDesc)) (o2 : Obj)
    (hnd : (L.map Prod.fst).Nodup)
    (hok : ∀ k, k ∈ L.map Prod.fst → confOrAbsent o2.props k = true) :
    defineList (h.set dst o2) dst L =
      .ok (h.set dst { o2 with props := applyDefs o2.props L }) := by
  induction L generalizing o2 with
  | nil => rw [defineList, applyDefs]
  | cons hd tl ih =>
    obtain ⟨k, d⟩ := hd
    have hb : (h.set dst o2)[dst]? = some o2 :=
      List.getElem?_set_self (by simpa using hlt)
    have hok1 : confOrAbsent o2.props k = true := hok k (by simp)
    rw [defineList]
    simp only [defineOwn_ok_shape _ _ _ _ _ hb hok1]
    rw [List.set_set]
    simp only [List.map_cons, List.nodup_cons] at hnd
    have hok2 : ∀ k2, k2 ∈ tl.map Prod.fst →
        confOrAbsent (setProp o2.props k d) k2 = true := by
      intro k2 hk2
      have hne : k2 ≠ k := by
        intro hcon
        subst hcon
        exact hnd.1 hk2
      rw [confOrAbsent_setProp_ne _ _ _ _ hne]
      exact hok k2 (by simp [hk2])
    have := ih { o2 with props := setProp o2.props k d } hnd.2 hok2
    rw [applyDefs]
    exact this

theorem copyOwnProps_ok_set (h : Heap) (src dst : Nat) (hlt : dst < h.length)
    (o2 tobj : Obj)
    (hsrc : (h.set dst o2)[src]? = some tobj)
    (hnd : (tobj.props.map Prod.fst).Nodup)
    (hok : ∀ k, k ∈ tobj.props.map Prod.fst → confOrAbsent o2.props k = true) :
    copyOwnProps (h.set dst o2) src dst =
      .ok (h.set dst { o2 with props := applyDefs o2.props tobj.props }) := by
  rw [copyOwnProps]
  simp only [hsrc]
  exact defineList_ok_set h dst hlt tobj.props o2 hnd hok

theorem copyOwnProps_ok_length {h h2 : Heap} {src dst : Nat}
    (hx : copyOwnProps h src dst = .ok h2) : h2.length = h.length := by
  rw [copyOwnProps] at hx
  cases hsrc : h[src]? with
  | none =>
    rw [hsrc] at hx
    cases hx
    rfl
  | some o =>
    rw [hsrc] at hx
    exact defineList_ok_length hx

theorem copyOwnProps_ok_get_ne {h h2 : Heap} {src dst : Nat}
    (hx : copyOwnProps h src dst = .ok h2) (a : Nat) (hne : a ≠ dst) :
    h2[a]? = h[a]? := by
  rw [copyOwnProps] at hx
  cases hsrc : h[src]? with
  | none =>
    rw [hsrc] at hx
    cases hx
    rfl
  | some o =>
    rw [hsrc] at hx
    exact defineList_ok_get_ne hx a hne

theorem copyOwnProps_error_badDefine {h : Heap} {src dst : Nat} {e : JsErr}
    (hx : copyOwnProps h src dst = .error e) : e = .badDefine := by
  rw [copyOwnProps] at hx
  cases hsrc : h[src]? with
  | none =>
    rw [hsrc] at hx
    exact Except.noConfusion hx
  | some o =>
    rw [hsrc] at hx
    exact defineList_error_badDefine hx

theorem setProto_length (h : Heap) (a : Nat) (p : Option Nat) :
    (setProto h a p).length = h.length := by
  unfold setProto
  cases hb : h[a]? with
  | none => rfl
  | some o => simp

theorem setProto_get_ne (h : Heap) (a b : Nat) (p : Option Nat) (hne : a ≠ b) :
    (setProto h b p)[a]? = h[a]? := by
  unfold setProto
  cases hb : h[b]? with
  | none => rfl
  | some o => exact List.getElem?_set_ne (Ne.symm hne)

theorem setProto_get_self (h : Heap) (b : Nat) (p : Option Nat) (o : Obj)
    (hb : h[b]? = some o) :
    (setProto h b p)[b]? = some { o with proto := p } := by
  unfold setProto
  rw [hb]
  exact List.getElem?_set_self (heap_lt_of_getElem h b o hb)

theorem append2_get_left (h : Heap) (o1 o2 : Obj) (a : Nat) (ha : a < h.length) :
    (h ++ [o1, o2])[a]? = h[a]? :=
  List.getElem?_append_left ha

theorem append2_get_fst (h : Heap) (o1 o2 : Obj) :
    (h ++ [o1, o2])[h.length]? = some o1 := by
  rw [List.getElem?_append_right (Nat.le_refl _)]
  simp

theorem append2_get_snd (h : Heap) (o1 o2 : Obj) :
    (h ++ [o1, o2])[h.length + 1]? = some o2 := by
  rw [List.getElem?_append_right (Nat.le_add_right _ _)]
  simp

theorem hasInChain_own (n : Nat) (h : Heap) (a : Nat) (k : Key) (o : Obj)
    (ha : h[a]? = some o) (hk : (lookupProp o.props k).isSome) :
    hasInChain (n + 1) h a k = true := by
  rw [hasInChain, ha]
  simp [hk]

theorem getMember_step (fuel : Nat) (h : Heap) (a : Nat) (k : Key) :
    getMember (fuel + 1) h (.obj a) k = exec fuel h (.chain a (.obj a) k) := rfl

theorem chain_own_data (fuel : Nat) (h : Heap) (a : Nat) (recv : Value) (k : Key)
    (o : Obj) (v : Value) (w e c : Bool) (ha : h[a]? = some o)
    (hk : lookupProp o.props k = some (.data v w e c)) :
    exec (fuel + 1) h (.chain a recv k) = .ok (h, v) := by
  simp only [exec, ha, hk]

theorem chain_proto_step (fuel : Nat) (h : Heap) (a p : Nat) (recv : Value) (k : Key)
    (o : Obj) (ha : h[a]? = some o) (hk : lookupProp o.props k = none)
    (hp : o.proto = some p) :
    exec (fuel + 1) h (.chain a recv k) = exec fuel h (.chain p recv k) := by
  simp only [exec, ha, hk, hp]

theorem chain_end (fuel : Nat) (h : Heap) (a : Nat) (recv : Value) (k : Key)
    (o : Obj) (ha : h[a]? = some o) (hk : lookupProp o.props k = none)
    (hp : o.proto = none) :
    exec (fuel + 1) h (.chain a recv k) = .ok (h, .undef) := by
  simp only [exec, ha, hk, hp]

theorem getMember_own_data (n : Nat) (h : Heap) (a : Nat) (k : Key)
    (o : Obj) (v : Value) (w e c : Bool) (ha : h[a]? = some o)
    (hk : lookupProp o.props k = some (.data v w e c)) :
    getMember (n + 2) h (.obj a) k = .ok (h, v) := by
  show getMember (n + 1 + 1) h (.obj a) k = .ok (h, v)
  rw [getMember_step]
  exact chain_own_data n h a (.obj a) k o v w e c ha hk

theorem getMember_proto_data (n : Nat) (h : Heap) (a p : Nat) (k : Key)
    (o po : Obj) (v : Value) (w e c : Bool) (ha : h[a]? = some o)
    (hk : lookupProp o.props k = none) (hp : o.proto = some p)
    (hpo : h[p]? = some po) (hpk : lookupProp po.props k = some (.data v w e c)) :
    getMember (n + 3) h (.obj a) k = .ok (h, v) := by
  show getMember (n + 1 + 1 + 1) h (.obj a) k = .ok (h, v)
  rw [getMember_step, chain_proto_step (n + 1) h a p (.obj a) k o ha hk hp]
  exact chain_own_data n h p (.obj a) k po v w e c hpo hpk

theorem stable_refl (h : Heap) : stable h h :=
  ⟨Nat.le_refl _, fun _ _ => rfl⟩

theorem stable_trans {h1 h2 h3 : Heap} (a : stable h1 h2) (b : stable h2 h3) :
    stable h1 h3 :=
  ⟨Nat.le_trans a.1 b.1,
    fun x hx => (b.2 x (Nat.lt_of_lt_of_le hx a.1)).trans (a.2 x hx)⟩

theorem stable_set {h : Heap} {a : Nat} {o o2 : Obj} (ha : h[a]? = some o)
    (hp : o2.proto = o.proto) (hc : o2.code = o.code) : stable h (h.set a o2) := by
  refine ⟨Nat.le_of_eq (by simp), fun x hx => ?_⟩
  by_cases hxa : x = a
  · subst hxa
    rw [List.getElem?_set_self (heap_lt_of_getElem h x o ha), ha]
    simp [hp, hc]
  · rw [List.getElem?_set_ne (Ne.symm hxa)]

theorem stable_append (h : Heap) (l : List Obj) : stable h (h ++ l) := by
  refine ⟨by simp, fun x hx => ?_⟩
  rw [List.getElem?_append_left hx]

theorem stable_of_ok {h h2 : Heap} {x v : Value}
    (hx : (Except.ok (h, x) : Except JsErr (Heap × Value)) = .ok (h2, v)) :
    stable h h2 := by
  cases hx
  exact stable_refl h

theorem stable_of_set_ok {h h2 : Heap} {a : Nat} {o : Obj} {p : List (Key × PropDesc)}
    {x v : Value}
    (hx : (Except.ok (h.set a { o with props := p }, x) : Except JsErr (Heap × Value)) = .ok (h2, v))
    (ha : h[a]? = some o) : stable h h2 := by
  cases hx
  exact stable_set ha rfl rfl

theorem exec_preserves (f : Nat) :
    ∀ (h : Heap) (r : Req) (h2 : Heap) (v : Value),
      exec f h r = .ok (h2, v) → stable h h2 := by
  induction f with
  | zero =>
    intro h r h2 v hx
    exact Except.noConfusion hx
  | succ n ih =>
    intro h r h2 v hx
    cases r with
    | run c thisv args =>
      cases c with
      | ret v0 => exact stable_of_ok hx
      | thisOwn k =>
        simp only [exec] at hx
        repeat' split at hx
        all_goals exact stable_of_ok hx
      | setThis k =>
        simp only [exec] at hx
        repeat' split at hx
        all_goals first
          | exact stable_of_ok hx
          | exact stable_of_set_ok hx (by assumption)
      | nthArg i => exact stable_of_ok hx
      | argCount => exact stable_of_ok hx
      | bumpThenRet a k v0 =>
        simp only [exec] at hx
        repeat' split at hx
        all_goals first
          | exact stable_of_ok hx
          | exact stable_of_set_ok hx (by assumption)
      | masquerade self =>
        simp only [exec] at hx
        split at hx
        · exact Except.noConfusion hx
        · rename_i h1 g heq1
          split at hx
          · exact Except.noConfusion hx
          · rename_i h1b ap heq2
            exact stable_trans (stable_trans (ih _ _ _ _ heq1) (ih _ _ _ _ heq2))
              (ih _ _ _ _ hx)
      | applyBuiltin =>
        simp only [exec] at hx
        split at hx
        · exact Except.noConfusion hx
        · repeat' split at hx
          all_goals first
            | exact Except.noConfusion hx
            | exact ih _ _ _ _ hx
    | member v0 k =>
      simp only [exec] at hx
      split at hx
      · exact Except.noConfusion hx
      · exact Except.noConfusion hx
      · exact ih _ _ _ _ hx
      · exact stable_of_ok hx
    | chain a recv k =>
      simp only [exec] at hx
      repeat' split at hx
      all_goals first
        | exact stable_of_ok hx
        | exact Except.noConfusion hx
        | exact ih _ _ _ _ hx
    | callv v0 thisv args =>
      simp only [exec] at hx
      repeat' split at hx
      all_goals first
        | exact stable_of_ok hx
        | exact Except.noConfusion hx
        | exact ih _ _ _ _ hx
    | applyCall ap g self args =>
      simp only [exec] at hx
      repeat' split at hx
      all_goals first
        | exact Except.noConfusion hx
        | exact ih _ _ _ _ hx
        | exact stable_trans (stable_append _ _) (ih _ _ _ _ hx)

theorem exec_not_missing (f : Nat) :
    ∀ (h : Heap) (r : Req) (e : JsErr), exec f h r = .error e → e ≠ .missingCall := by
  induction f with
  | zero =>
    intro h r e hx
    cases hx
    simp
  | succ n ih =>
    intro h r e hx
    cases r with
    | run c thisv args =>
      cases c with
      | ret v0 => exact Except.noConfusion hx
      | thisOwn k =>
        simp only [exec] at hx
        repeat' split at hx
        all_goals exact Except.noConfusion hx
      | setThis k =>
        simp only [exec] at hx
        repeat' split at hx
        all_goals exact Except.noConfusion hx
      | nthArg i => exact Except.noConfusion hx
      | argCount => exact Except.noConfusion hx
      | bumpThenRet a k v0 =>
        simp only [exec] at hx
        repeat' split at hx
        all_goals exact Except.noConfusion hx
      | masquerade self =>
        simp only [exec] at hx
        split at hx
        · rename_i e0 heq1
          cases hx
          exact ih _ _ _ heq1
        · rename_i h1 g heq1
          split at hx
          · rename_i e0 heq2
            cases hx
            exact ih _ _ _ heq2
          · exact ih _ _ _ hx
      | applyBuiltin =>
        simp only [exec] at hx
        split at hx
        · cases hx
          simp
        · repeat' split at hx
          all_goals first
            | (cases hx; simp)
            | exact ih _ _ _ hx
    | member v0 k =>
      simp only [exec] at hx
      split at hx
      · cases hx
        simp
      · cases hx
        simp
      · exact ih _ _ _ hx
      · exact Except.noConfusion hx
    | chain a recv k =>
      simp only [exec] at hx
      repeat' split at hx
      all_goals first
        | exact Except.noConfusion hx
        | (cases hx; simp)
        | exact ih _ _ _ hx
    | callv v0 thisv args =>
      simp only [exec] at hx
      repeat' split at hx
      all_goals first
        | exact Except.noConfusion hx
        | (cases hx; simp)
        | exact ih _ _ _ hx
    | applyCall ap g self args =>
      simp only [exec] at hx
      repeat' split at hx
      all_goals first
        | exact Except.noConfusion hx
        | (cases hx; simp)
        | exact ih _ _ _ hx

theorem codeAt_set_props {h : Heap} {b : Nat} {o : Obj} {p : List (Key × PropDesc)}
    (hb : h[b]? = some o) (a : Nat) :
    codeAt (h.set b { o with props := p }) a = codeAt h a := by
  by_cases hab : a = b
  · subst hab
    rw [codeAt, codeAt, List.getElem?_set_self (heap_lt_of_getElem h a o hb), hb]
    rfl
  · rw [codeAt, codeAt, List.getElem?_set_ne (Ne.symm hab)]

theorem codeAt_defineOwn_ok {h h2 : Heap} {b : Nat} {k : Key} {d : PropDesc}
    (hx : defineOwn h b k d = .ok h2) (a : Nat) : codeAt h2 a = codeAt h a := by
  rcases defineOwn_ok_cases hx with he | ⟨o, hb, he⟩
  · rw [he]
  · rw [he]
    exact codeAt_set_props hb a

theorem codeAt_defineList_ok {h h2 : Heap} {dst : Nat} {L : List (Key × PropDesc)}
    (hx : defineList h dst L = .ok h2) (a : Nat) : codeAt h2 a = codeAt h a := by
  induction L generalizing h with
  | nil =>
    cases hx
    rfl
  | cons hd tl ih =>
    obtain ⟨k, d⟩ := hd
    rw [defineList] at hx
    split at hx
    · exact Except.noConfusion hx
    · rename_i h1 heq
      exact (ih hx).trans (codeAt_defineOwn_ok heq a)

theorem codeAt_copyOwnProps_ok {h h2 : Heap} {src dst : Nat}
    (hx : copyOwnProps h src dst = .ok h2) (a : Nat) : codeAt h2 a = codeAt h a := by
  rw [copyOwnProps] at hx
  cases hsrc : h[src]? with
  | none =>
    rw [hsrc] at hx
    cases hx
    rfl
  | some o =>
    rw [hsrc] at hx
    exact codeAt_defineList_ok hx a

theorem codeAt_setProto (h : Heap) (b : Nat) (p : Option Nat) (a : Nat) :
    codeAt (setProto h b p) a = codeAt h a := by
  by_cases hab : a = b
  · subst hab
    cases hb : h[a]? with
    | none =>
      rw [codeAt, codeAt, setProto, hb]
      simp [hb]
    | some o =>
      rw [codeAt, codeAt, setProto_get_self h a p o hb, hb]
      rfl
  · rw [codeAt, codeAt, setProto_get_ne _ _ _ _ hab]

theorem codeAt_stable {h h2 : Heap} (st : stable h h2) (a : Nat) (ha : a < h.length) :
    codeAt h2 a = codeAt h a := by
  have h2a := st.2 a ha
  rw [codeAt, codeAt]
  cases e1 : h[a]? with
  | none =>
    rw [e1] at h2a
    simp only [Option.map_none'] at h2a
    rw [Option.map_eq_none'.mp h2a]
  | some o =>
    rw [e1] at h2a
    cases e2 : h2[a]? with
    | none =>
      rw [e2] at h2a
      simp at h2a
    | some o2 =>
      rw [e2] at h2a
      simp only [Option.map_some', Option.some.injEq, Prod.mk.injEq] at h2a
      simp [h2a.2]

theorem hasInChain_isSome (n : Nat) (h : Heap) (a : Nat) (k : Key)
    (hk : hasInChain n h a k = true) : ∃ o, h[a]? = some o := by
  cases n with
  | zero =>
    rw [hasInChain] at hk
    cases hk
  | succ m =>
    rw [hasInChain] at hk
    revert hk
    cases ha : h[a]? with
    | none =>
      intro hk
      cases hk
    | some o => exact fun _ => ⟨o, rfl⟩

theorem hasInChain_step (n : Nat) (h : Heap) (a p : Nat) (k : Key) (o : Obj)
    (ha : h[a]? = some o) (hp : o.proto = some p)
    (hr : hasInChain n h p k = true) : hasInChain (n + 1) h a k = true := by
  simp only [hasInChain, ha, hp, hr, Bool.or_true]

theorem hasInChain_via_proto (h : Heap) (a p : Nat) (k : Key) (o po : Obj)
    (ha : h[a]? = some o) (hp : o.proto = some p) (hpo : h[p]? = some po)
    (hk : (lookupProp po.props k).isSome) :
    hasInChain (h.length + 1) h a k = true := by
  have hltp := heap_lt_of_getElem h p po hpo
  have hpos : 0 < h.length := Nat.lt_of_le_of_lt (Nat.zero_le p) hltp
  obtain ⟨m, hm⟩ : ∃ m, h.length = m + 1 :=
    ⟨h.length - 1, (Nat.succ_pred_eq_of_pos hpos).symm⟩
  have hres : hasInChain (m + 1) h p k = true := hasInChain_own m h p k po hpo hk
  rw [hm]
  exact hasInChain_step (m + 1) h a p k o ha hp hres

theorem protoAt_unpack {h : Heap} {a : Nat} {p : Option Nat}
    (hp : protoAt h a = some p) : ∃ o, h[a]? = some o ∧ o.proto = p := by
  rw [protoAt] at hp
  cases e : h[a]? with
  | none =>
    rw [e] at hp
    exact Option.noConfusion hp
  | some o =>
    rw [e] at hp
    simp only [Option.map_some', Option.some.injEq] at hp
    exact ⟨o, rfl, hp⟩

theorem ownDesc_unpack {h : Heap} {a : Nat} {k : Key} {d : PropDesc}
    (hd : ownDesc h a k = some d) :
    ∃ o, h[a]? = some o ∧ lookupProp o.props k = some d := by
  rw [ownDesc] at hd
  revert hd
  cases e : h[a]? with
  | none => exact fun hd => Option.noConfusion hd
  | some o => exact fun hd => ⟨o, rfl, hd⟩

theorem codeAt_unpack {h : Heap} {a : Nat} {c : FnCode}
    (hc : codeAt h a = some c) : ∃ o, h[a]? = some o ∧ o.code = some c := by
  rw [codeAt] at hc
  revert hc
  cases e : h[a]? with
  | none => exact fun hc => Option.noConfusion hc
  | some o => exact fun hc => ⟨o, rfl, hc⟩

theorem setProp_fresh_name (fa : Nat) (d0 : PropDesc) :
    setProp (freshFn fa).props "name" d0 =
      [("length", .data (.num 0) false false true), ("name", d0),
       ("prototype", .data (.obj (fa + 1)) true false false)] := by
  simp [freshFn, setProp]

theorem confOrAbsent_fresh (fa : Nat) (nm : Value) (b1 b2 : Bool) (k : Key)
    (hk : k ≠ "prototype") :
    confOrAbsent (setProp (freshFn fa).props "name" (.data nm b1 b2 true)) k = true := by
  rw [setProp_fresh_name, confOrAbsent]
  by_cases h1 : ("length" : String) = k
  · rw [lookupProp, if_pos h1]
    rfl
  · rw [lookupProp, if_neg h1]
    by_cases h2 : ("name" : String) = k
    · rw [lookupProp, if_pos h2]
      rfl
    · rw [lookupProp, if_neg h2, lookupProp,
        if_neg (fun hh => hk hh.symm), lookupProp]

theorem create_plain_master (n : Nat) (h : Heap) (ta : Nat) (tobj : Obj)
    (cv nm : Value) (w e c : Bool) (hn : Bool)
    (hta : h[ta]? = some tobj)
    (hproto : tobj.proto = some objectProtoAddr)
    (hcall : lookupProp tobj.props call = some (.data cv w e c))
    (hname : getMember (n + 2) (h ++ [freshFn h.length, freshFnProto h.length]) cv "name"
      = .ok (h ++ [freshFn h.length, freshFnProto h.length], nm))
    (hhn : hn = hasInChain ((h ++ [freshFn h.length, freshFnProto h.length]).length + 1)
      (h ++ [freshFn h.length, freshFnProto h.length]) ta "name")
    (hnd : (tobj.props.map Prod.fst).Nodup)
    (hnp : lookupProp tobj.props "prototype" = none) :
    create (n + 2) h ta =
      .ok ((h ++ [freshFn h.length, freshFnProto h.length]).set h.length { freshFn h.length with props := applyDefs (setProp (freshFn h.length).props "name" (.data nm hn hn true)) tobj.props }, h.length) := by
  have hlt := heap_lt_of_getElem h ta tobj hta
  have hta1 : (h ++ [freshFn h.length, freshFnProto h.length])[ta]? = some tobj := by
    rw [append2_get_left h _ _ ta hlt]
    exact hta
  have hchain : hasInChain (h.length + 1) h ta call = true :=
    hasInChain_own h.length h ta call tobj hta (by rw [hcall]; rfl)
  have hget1 : getMember (n + 2) (h ++ [freshFn h.length, freshFnProto h.length])
      (.obj ta) call = .ok (h ++ [freshFn h.length, freshFnProto h.length], cv) :=
    getMember_own_data n _ ta call tobj cv w e c hta1 hcall
  have hdef : defineOwn (h ++ [freshFn h.length, freshFnProto h.length]) h.length "name" (.data nm hn hn true) = .ok ((h ++ [freshFn h.length, freshFnProto h.length]).set h.length { freshFn h.length with props := setProp (freshFn h.length).props "name" (.data nm hn hn true) }) :=
    defineOwn_ok_shape _ _ _ _ _ (append2_get_fst h _ _) (by rfl)
  have hok : ∀ k, k ∈ tobj.props.map Prod.fst →
      confOrAbsent (setProp (freshFn h.length).props "name" (.data nm hn hn true)) k = true := by
    intro k hkmem
    refine confOrAbsent_fresh _ _ _ _ _ ?_
    intro hcon
    subst hcon
    exact (not_mem_of_lookupProp_none _ _ hnp) hkmem
  have hsrc : ((h ++ [freshFn h.length, freshFnProto h.length]).set h.length { freshFn h.length with props := setProp (freshFn h.length).props "name" (.data nm hn hn true) })[ta]? = some tobj := by
    rw [List.getElem?_set_ne (Ne.symm (Nat.ne_of_lt hlt))]
    exact hta1
  have hcopy : copyOwnProps ((h ++ [freshFn h.length, freshFnProto h.length]).set h.length { freshFn h.length with props := setProp (freshFn h.length).props "name" (.data nm hn hn true) }) ta h.length = .ok ((h ++ [freshFn h.length, freshFnProto h.length]).set h.length { freshFn h.length with props := applyDefs (setProp (freshFn h.length).props "name" (.data nm hn hn true)) tobj.props }) :=
    copyOwnProps_ok_set (h ++ [freshFn h.length, freshFnProto h.length]) ta h.length
      (by simp) _ tobj hsrc hnd hok
  subst hhn
  simp only [create, hchain, Bool.true_eq_false, if_false, hta, hproto, if_pos,
    hget1, hname, hdef, hcopy]

theorem create_class_master (n : Nat) (h : Heap) (ta pa ca pp : Nat)
    (tobj pobj cobj : Obj) (cn : Value)
    (c1 c2 c3 w1 e1 cf1 w2 e2 cf2 : Bool) (hn : Bool)
    (hta : h[ta]? = some tobj)
    (hproto : tobj.proto = some pa)
    (hne : pa ≠ objectProtoAddr)
    (hchain : hasInChain (h.length + 1) h ta call = true)
    (hpa : h[pa]? = some pobj)
    (hnoshadow : lookupProp tobj.props "constructor" = none)
    (hctor : lookupProp pobj.props "constructor" = some (.data (.obj ca) c1 c2 c3))
    (hca : h[ca]? = some cobj)
    (hcname : lookupProp cobj.props "name" = some (.data cn w1 e1 cf1))
    (hcproto : lookupProp cobj.props "prototype" = some (.data (.obj pp) w2 e2 cf2))
    (hhn : hn = (lookupProp tobj.props "name").isSome)
    (hnd : (tobj.props.map Prod.fst).Nodup)
    (hnp : lookupProp tobj.props "prototype" = none) :
    create (n + 3) h ta =
      .ok (setProto ((h ++ [freshFn h.length, freshFnProto h.length]).set h.length { freshFn h.length with props := applyDefs (setProp (freshFn h.length).props "name" (.data cn hn hn true)) tobj.props }) h.length (some pp), h.length) := by
  have hlt := heap_lt_of_getElem h ta tobj hta
  have hltpa := heap_lt_of_getElem h pa pobj hpa
  have hltca := heap_lt_of_getElem h ca cobj hca
  have hta1 : (h ++ [freshFn h.length, freshFnProto h.length])[ta]? = some tobj := by
    rw [append2_get_left h _ _ ta hlt]
    exact hta
  have hpa1 : (h ++ [freshFn h.length, freshFnProto h.length])[pa]? = some pobj := by
    rw [append2_get_left h _ _ pa hltpa]
    exact hpa
  have hca1 : (h ++ [freshFn h.length, freshFnProto h.length])[ca]? = some cobj := by
    rw [append2_get_left h _ _ ca hltca]
    exact hca
  have hprotone : tobj.proto ≠ some objectProtoAddr := by
    rw [hproto]
    intro hco
    exact hne (Option.some.injEq _ _ ▸ hco)
  have hget1 : getMember (n + 3) (h ++ [freshFn h.length, freshFnProto h.length])
      (.obj ta) "constructor"
      = .ok (h ++ [freshFn h.length, freshFnProto h.length], .obj ca) :=
    getMember_proto_data n _ ta pa "constructor" tobj pobj (.obj ca) c1 c2 c3
      hta1 hnoshadow hproto hpa1 hctor
  have hget2 : getMember (n + 3) (h ++ [freshFn h.length, freshFnProto h.length])
      (.obj ca) "name" = .ok (h ++ [freshFn h.length, freshFnProto h.length], cn) := by
    show getMember (n + 1 + 2) (h ++ [freshFn h.length, freshFnProto h.length])
      (.obj ca) "name" = _
    exact getMember_own_data (n + 1) _ ca "name" cobj cn w1 e1 cf1 hca1 hcname
  have hownname : ownDesc (h ++ [freshFn h.length, freshFnProto h.length]) ta "name"
      = lookupProp tobj.props "name" := by
    rw [ownDesc, hta1]
  have hdef : defineOwn (h ++ [freshFn h.length, freshFnProto h.length]) h.length "name" (.data cn hn hn true) = .ok ((h ++ [freshFn h.length, freshFnProto h.length]).set h.length { freshFn h.length with props := setProp (freshFn h.length).props "name" (.data cn hn hn true) }) :=
    defineOwn_ok_shape _ _ _ _ _ (append2_get_fst h _ _) (by rfl)
  have hok : ∀ k, k ∈ tobj.props.map Prod.fst →
      confOrAbsent (setProp (freshFn h.length).props "name" (.data cn hn hn true)) k = true := by
    intro k hkmem
    refine confOrAbsent_fresh _ _ _ _ _ ?_
    intro hcon
    subst hcon
    exact (not_mem_of_lookupProp_none _ _ hnp) hkmem
  have hsrc : ((h ++ [freshFn h.length, freshFnProto h.length]).set h.length { freshFn h.length with props := setProp (freshFn h.length).props "name" (.data cn hn hn true) })[ta]? = some tobj := by
    rw [List.getElem?_set_ne (Ne.symm (Nat.ne_of_lt hlt))]
    exact hta1
  have hcopy : copyOwnProps ((h ++ [freshFn h.length, freshFnProto h.length]).set h.length { freshFn h.length with props := setProp (freshFn h.length).props "name" (.data cn hn hn true) }) ta h.length = .ok ((h ++ [freshFn h.length, freshFnProto h.length]).set h.length { freshFn h.length with props := applyDefs (setProp (freshFn h.length).props "name" (.data cn hn hn true)) tobj.props }) :=
    copyOwnProps_ok_set (h ++ [freshFn h.length, freshFnProto h.length]) ta h.length
      (by simp) _ tobj hsrc hnd hok
  have hca5 : ((h ++ [freshFn h.length, freshFnProto h.length]).set h.length { freshFn h.length with props := applyDefs (setProp (freshFn h.length).props "name" (.data cn hn hn true)) tobj.props })[ca]? = some cobj := by
    rw [List.getElem?_set_ne (Ne.symm (Nat.ne_of_lt hltca))]
    exact hca1
  have hget3 : getMember (n + 3) ((h ++ [freshFn h.length, freshFnProto h.length]).set h.length { freshFn h.length with props := applyDefs (setProp (freshFn h.length).props "name" (.data cn hn hn true)) tobj.props }) (.obj ca) "prototype" = .ok (((h ++ [freshFn h.length, freshFnProto h.length]).set h.length { freshFn h.length with props := applyDefs (setProp (freshFn h.length).props "name" (.data cn hn hn true)) tobj.props }), .obj pp) := by
    show getMember (n + 1 + 2) _ (.obj ca) "prototype" = _
    exact getMember_own_data (n + 1) _ ca "prototype" cobj (.obj pp) w2 e2 cf2
      hca5 hcproto
  subst hhn
  simp only [create, hchain, Bool.true_eq_false, if_false, hta, hprotone,
    if_neg, hget1, hownname, hget2, hdef, hcopy, hget3]

theorem create_plain_result (n : Nat) (h : Heap) (ta : Nat) (tobj : Obj)
    (cv nm : Value) (w e c : Bool)
    (hta : h[ta]? = some tobj)
    (hproto : tobj.proto = some objectProtoAddr)
    (hcall : lookupProp tobj.props call = some (.data cv w e c))
    (hname : getMember (n + 2) (h ++ [freshFn h.length, freshFnProto h.length]) cv "name"
      = .ok (h ++ [freshFn h.length, freshFnProto h.length], nm))
    (hnd : (tobj.props.map Prod.fst).Nodup)
    (hnp : lookupProp tobj.props "prototype" = none) :
    ∃ H hn, create (n + 2) h ta = .ok (H, h.length) ∧
      H[h.length]? = some { freshFn h.length with props := applyDefs (setProp (freshFn h.length).props "name" (.data nm hn hn true)) tobj.props } ∧
      hasInChain ((h ++ [freshFn h.length, freshFnProto h.length]).length + 1)
        (h ++ [freshFn h.length, freshFnProto h.length]) ta "name" = hn ∧
      (∀ a, a < h.length → H[a]? = h[a]?) := by
  refine ⟨_, _, create_plain_master n h ta tobj cv nm w e c _ hta hproto hcall
    hname rfl hnd hnp, ?_, rfl, ?_⟩
  · exact List.getElem?_set_self (by simp)
  · intro a ha
    rw [List.getElem?_set_ne (Ne.symm (Nat.ne_of_lt ha)), append2_get_left _ _ _ a ha]

theorem create_class_result (n : Nat) (h : Heap) (ta pa ca pp : Nat)
    (tobj pobj cobj : Obj) (cn : Value)
    (c1 c2 c3 w1 e1 cf1 w2 e2 cf2 : Bool)
    (hta : h[ta]? = some tobj)
    (hproto : tobj.proto = some pa)
    (hne : pa ≠ objectProtoAddr)
    (hchain : hasInChain (h.length + 1) h ta call = true)
    (hpa : h[pa]? = some pobj)
    (hnoshadow : lookupProp tobj.props "constructor" = none)
    (hctor : lookupProp pobj.props "constructor" = some (.data (.obj ca) c1 c2 c3))
    (hca : h[ca]? = some cobj)
    (hcname : lookupProp cobj.props "name" = some (.data cn w1 e1 cf1))
    (hcproto : lookupProp cobj.props "prototype" = some (.data (.obj pp) w2 e2 cf2))
    (hnd : (tobj.props.map Prod.fst).Nodup)
    (hnp : lookupProp tobj.props "prototype" = none) :
    ∃ H, create (n + 3) h ta = .ok (H, h.length) ∧
      H[h.length]? = some { props := applyDefs (setProp (freshFn h.length).props "name" (.data cn ((lookupProp tobj.props "name").isSome) ((lookupProp tobj.props "name").isSome) true)) tobj.props, proto := some pp, code := some (.masquerade h.length) } ∧
      (∀ a, a < h.length → H[a]? = h[a]?) := by
  refine ⟨_, create_class_master n h ta pa ca pp tobj pobj cobj cn c1 c2 c3
    w1 e1 cf1 w2 e2 cf2 _ hta hproto hne hchain hpa hnoshadow hctor hca hcname
    hcproto rfl hnd hnp, ?_, ?_⟩
  · have hbase : ((h ++ [freshFn h.length, freshFnProto h.length]).set h.length { freshFn h.length with props := applyDefs (setProp (freshFn h.length).props "name" (.data cn ((lookupProp tobj.props "name").isSome) ((lookupProp tobj.props "name").isSome) true)) tobj.props })[h.length]? = some { freshFn h.length with props := applyDefs (setProp (freshFn h.length).props "name" (.data cn ((lookupProp tobj.props "name").isSome) ((lookupProp tobj.props "name").isSome) true)) tobj.props } :=
      List.getElem?_set_self (by simp)
    exact setProto_get_self _ h.length (some pp) _ hbase
  · intro a ha
    rw [setProto_get_ne _ _ _ _ (Nat.ne_of_lt ha),
      List.getElem?_set_ne (Ne.symm (Nat.ne_of_lt ha)), append2_get_left _ _ _ a ha]

theorem create_code (fuel : Nat) (h : Heap) (ta : Nat) (h2 : Heap) (fa : Nat)
    (hc : create fuel h ta = .ok (h2, fa)) :
    fa = h.length ∧ codeAt h2 fa = some (.masquerade fa) := by
  have hlt1 : h.length < (h ++ [freshFn h.length, freshFnProto h.length]).length := by
    simp
  have hfresh : codeAt (h ++ [freshFn h.length, freshFnProto h.length]) h.length
      = some (.masquerade h.length) := by
    rw [codeAt, append2_get_fst]
    rfl
  simp only [create] at hc
  split at hc
  · exact Except.noConfusion hc
  · split at hc
    · exact Except.noConfusion hc
    · rename_i tobj hta
      split at hc
      · split at hc
        · exact Except.noConfusion hc
        · rename_i h2b cv heq1
          split at hc
          · exact Except.noConfusion hc
          · rename_i h3b nm heq2
            split at hc
            · exact Except.noConfusion hc
            · rename_i h4b heq3
              split at hc
              · exact Except.noConfusion hc
              · rename_i h5b heq4
                cases hc
                refine ⟨rfl, ?_⟩
                have st1 := exec_preserves fuel _ _ _ _ heq1
                have st2 := exec_preserves fuel _ _ _ _ heq2
                have hlt2 : h.length < h2b.length := Nat.lt_of_lt_of_le hlt1 st1.1
                rw [codeAt_copyOwnProps_ok heq4, codeAt_defineOwn_ok heq3,
                  codeAt_stable st2 _ hlt2, codeAt_stable st1 _ hlt1]
                exact hfresh
      · split at hc
        · exact Except.noConfusion hc
        · rename_i h2b ctor heq1
          split at hc
          · exact Except.noConfusion hc
          · rename_i h3b nm heq2
            split at hc
            · exact Except.noConfusion hc
            · rename_i h4b heq3
              split at hc
              · exact Except.noConfusion hc
              · rename_i h5b heq4
                split at hc
                · exact Except.noConfusion hc
                · rename_i h6b pv heq5
                  have st1 := exec_preserves fuel _ _ _ _ heq1
                  have st2 := exec_preserves fuel _ _ _ _ heq2
                  have st3 := exec_preserves fuel _ _ _ _ heq5
                  have hlt2 : h.length < h2b.length := Nat.lt_of_lt_of_le hlt1 st1.1
                  have hlt3 : h.length < h3b.length := Nat.lt_of_lt_of_le hlt2 st2.1
                  have hlt5 : h.length < h5b.length := by
                    rw [copyOwnProps_ok_length heq4, defineOwn_ok_length heq3]
                    exact hlt3
                  split at hc
                  · cases hc
                    refine ⟨rfl, ?_⟩
                    rw [codeAt_setProto, codeAt_stable st3 _ hlt5,
                      codeAt_copyOwnProps_ok heq4, codeAt_defineOwn_ok heq3,
                      codeAt_stable st2 _ hlt2, codeAt_stable st1 _ hlt1]
                    exact hfresh
                  · cases hc
                    refine ⟨rfl, ?_⟩
                    rw [codeAt_setProto, codeAt_stable st3 _ hlt5,
                      codeAt_copyOwnProps_ok heq4, codeAt_defineOwn_ok heq3,
                      codeAt_stable st2 _ hlt2, codeAt_stable st1 _ hlt1]
                    exact hfresh
                  · exact Except.noConfusion hc

theorem create_missing_iff (fuel : Nat) (h : Heap) (ta : Nat) :
    create fuel h ta = .error .missingCall ↔
      hasInChain (h.length + 1) h ta call = false := by
  constructor
  · intro hc
    by_contra hcon
    have htrue : hasInChain (h.length + 1) h ta call = true := by
      cases hb : hasInChain (h.length + 1) h ta call with
      | false => exact absurd hb hcon
      | true => rfl
    obtain ⟨tobj, hta⟩ := hasInChain_isSome _ h ta call htrue
    simp only [create, htrue, Bool.true_eq_false, if_false, hta] at hc
    split at hc
    · split at hc
      · rename_i e0 heq
        cases hc
        exact exec_not_missing _ _ _ _ heq rfl
      · split at hc
        · rename_i e0 heq
          cases hc
          exact exec_not_missing _ _ _ _ heq rfl
        · split at hc
          · rename_i e0 heq
            cases hc
            exact JsErr.noConfusion (defineOwn_error_badDefine heq)
          · split at hc
            · rename_i e0 heq
              cases hc
              exact JsErr.noConfusion (copyOwnProps_error_badDefine heq)
            · exact Except.noConfusion hc
    · split at hc
      · rename_i e0 heq
        cases hc
        exact exec_not_missing _ _ _ _ heq rfl
      · split at hc
        · rename_i e0 heq
          cases hc
          exact exec_not_missing _ _ _ _ heq rfl
        · split at hc
          · rename_i e0 heq
            cases hc
            exact JsErr.noConfusion (defineOwn_error_badDefine heq)
          · split at hc
            · rename_i e0 heq
              cases hc
              exact JsErr.noConfusion (copyOwnProps_error_badDefine heq)
            · split at hc
              · rename_i e0 heq
                cases hc
                exact exec_not_missing _ _ _ _ heq rfl
              · split at hc
                · exact Except.noConfusion hc
                · exact Except.noConfusion hc
                · cases hc
  · intro hfalse
    unfold create
    rw [hfalse]
    rfl

theorem invoke_step (i : Nat) (h : Heap) (fa : Nat) (args : List Value) (o : Obj)
    (ho : h[fa]? = some o) (hcode : o.code = some (.masquerade fa)) :
    invoke (i + 2) h fa args =
      match exec i h (.member (.obj fa) call) with
      | .error e => .error e
      | .ok (h1, g) =>
        match exec i h1 (.member g "apply") with
        | .error e => .error e
        | .ok (h2, ap) => exec i h2 (.applyCall ap g fa args) := by
  show invoke (i + 1 + 1) h fa args = _
  simp only [invoke, callValue, exec, ho, hcode]

theorem invoke_resolved_builtin (m : Nat) (h h1 h2 : Heap) (fa aa : Nat)
    (args : List Value) (o ao : Obj) (g : Value)
    (ho : h[fa]? = some o) (hcode : o.code = some (.masquerade fa))
    (hres : exec (m + 1) h (.member (.obj fa) call) = .ok (h1, g))
    (happ : exec (m + 1) h1 (.member g "apply") = .ok (h2, .obj aa))
    (haa : h2[aa]? = some ao) (hac : ao.code = some .applyBuiltin) :
    invoke (m + 3) h fa args = exec m h2 (.callv g (.obj fa) args) := by
  show invoke (m + 1 + 2) h fa args = _
  rw [invoke_step (m + 1) h fa args o ho hcode]
  simp only [hres, happ]
  simp only [exec, haa, hac]

theorem invoke_resolved (m : Nat) (h h1 h2 : Heap) (fa ga aa : Nat)
    (args : List Value) (o go ao : Obj) (cc : FnCode)
    (ho : h[fa]? = some o) (hcode : o.code = some (.masquerade fa))
    (hres : exec (m + 2) h (.member (.obj fa) call) = .ok (h1, .obj ga))
    (happ : exec (m + 2) h1 (.member (.obj ga) "apply") = .ok (h2, .obj aa))
    (haa : h2[aa]? = some ao) (hac : ao.code = some .applyBuiltin)
    (hga : h2[ga]? = some go) (hgc : go.code = some cc) :
    invoke (m + 4) h fa args = runFn m h2 cc (.obj fa) args := by
  show invoke (m + 1 + 3) h fa args = _
  rw [invoke_resolved_builtin (m + 1) h h1 h2 fa aa args o ao (.obj ga)
    ho hcode hres happ haa hac]
  simp only [runFn, exec, hga, hgc]

theorem invoke_unresolved_nil (m : Nat) (h h1 : Heap) (fa : Nat)
    (args : List Value) (o : Obj) (g : Value)
    (ho : h[fa]? = some o) (hcode : o.code = some (.masquerade fa))
    (hres : exec (m + 1) h (.member (.obj fa) call) = .ok (h1, g))
    (hnil : g = .null ∨ g = .undef) :
    invoke (m + 3) h fa args = .error (.getOfNil "apply") := by
  show invoke (m + 1 + 2) h fa args = _
  rw [invoke_step (m + 1) h fa args o ho hcode]
  simp only [hres]
  rcases hnil with hg | hg
  · subst hg
    simp only [exec]
  · subst hg
    simp only [exec]

theorem invoke_unresolved_apply (m : Nat) (h h1 h2 : Heap) (fa : Nat)
    (args : List Value) (o : Obj) (g ap : Value)
    (ho : h[fa]? = some o) (hcode : o.code = some (.masquerade fa))
    (hres : exec (m + 1) h (.member (.obj fa) call) = .ok (h1, g))
    (happ : exec (m + 1) h1 (.member g "apply") = .ok (h2, ap))
    (hnc : isCallableV h2 ap = false) :
    invoke (m + 3) h fa args = .error .notCallable := by
  show invoke (m + 1 + 2) h fa args = _
  rw [invoke_step (m + 1) h fa args o ho hcode]
  simp only [hres, happ]
  cases ap with
  | obj a =>
    cases ha : h2[a]? with
    | none => simp only [exec, ha]
    | some oa =>
      simp only [isCallableV, ha] at hnc
      cases hoc : oa.code with
      | none => simp only [exec, ha, hoc]
      | some cc =>
        rw [hoc] at hnc
        exact Bool.noConfusion hnc
  | undef => simp only [exec]
  | null => simp only [exec]
  | bool b => simp only [exec]
  | num mm => simp only [exec]
  | str s => simp only [exec]

theorem create_plain_copies (n : Nat) (h : Heap) (ta ga : Nat)
    (w e c nw ne2 nc : Bool) (nv : Value)
    (hpr : protoAt h ta = some (some objectProtoAddr))
    (hcd : ownDesc h ta call = some (.data (.obj ga) w e c))
    (hgn : ownDesc h ga "name" = some (.data nv nw ne2 nc))
    (hnd : (ownKeys h ta).Nodup)
    (hnp : ownDesc h ta "prototype" = none) :
    ∃ H, create (n + 2) h ta = .ok (H, h.length) ∧
      (∀ k d, ownDesc h ta k = some d → ownDesc H h.length k = some d) ∧
      (∀ a, a < h.length → H[a]? = h[a]?) := by
  obtain ⟨tobj, hta, hproto⟩ := protoAt_unpack hpr
  obtain ⟨tobj2, hta2, hcall⟩ := ownDesc_unpack hcd
  cases heap_some_inj hta2 hta
  obtain ⟨go, hga, hgname⟩ := ownDesc_unpack hgn
  have hga1 : (h ++ [freshFn h.length, freshFnProto h.length])[ga]? = some go := by
    rw [append2_get_left h _ _ ga (heap_lt_of_getElem h ga go hga)]
    exact hga
  have hnd2 : (tobj.props.map Prod.fst).Nodup := by
    simp only [ownKeys, hta] at hnd
    exact hnd
  have hnp2 : lookupProp tobj.props "prototype" = none := by
    simp only [ownDesc, hta] at hnp
    exact hnp
  obtain ⟨H, hn, hcr, hHfa, -, hpres⟩ := create_plain_result n h ta tobj
    (.obj ga) nv w e c hta hproto hcall
    (getMember_own_data n _ ga "name" go nv nw ne2 nc hga1 hgname) hnd2 hnp2
  refine ⟨H, hcr, ?_, hpres⟩
  intro k d hkd
  have hkd2 : lookupProp tobj.props k = some d := by
    simp only [ownDesc, hta] at hkd
    exact hkd
  simp only [ownDesc, hHfa]
  exact lookupProp_applyDefs_mem tobj.props k d hnd2 hkd2 _

theorem create_class_copies (n : Nat) (h : Heap) (ta pa ca pp ma : Nat)
    (c1 c2 c3 w1 e1 cf1 w2 e2 cf2 m1 m2 m3 : Bool) (cn : Value)
    (hpr : protoAt h ta = some (some pa))
    (hne : pa ≠ objectProtoAddr)
    (hnosh : ownDesc h ta "constructor" = none)
    (hct : ownDesc h pa "constructor" = some (.data (.obj ca) c1 c2 c3))
    (hcn : ownDesc h ca "name" = some (.data cn w1 e1 cf1))
    (hcp : ownDesc h ca "prototype" = some (.data (.obj pp) w2 e2 cf2))
    (hmth : ownDesc h pa call = some (.data (.obj ma) m1 m2 m3))
    (hnd : (ownKeys h ta).Nodup)
    (hnp : ownDesc h ta "prototype" = none) :
    ∃ H, create (n + 3) h ta = .ok (H, h.length) ∧
      (∀ k d, ownDesc h ta k = some d → ownDesc H h.length k = some d) ∧
      (∀ a, a < h.length → H[a]? = h[a]?) := by
  obtain ⟨tobj, hta, hproto⟩ := protoAt_unpack hpr
  obtain ⟨pobj, hpa, hctor⟩ := ownDesc_unpack hct
  obtain ⟨cobj, hca, hcname⟩ := ownDesc_unpack hcn
  obtain ⟨cobj2, hca2, hcproto⟩ := ownDesc_unpack hcp
  cases heap_some_inj hca2 hca
  obtain ⟨pobj2, hpa2, hmeth⟩ := ownDesc_unpack hmth
  cases heap_some_inj hpa2 hpa
  have hnoshadow : lookupProp tobj.props "constructor" = none := by
    simp only [ownDesc, hta] at hnosh
    exact hnosh
  have hchain : hasInChain (h.length + 1) h ta call = true :=
    hasInChain_via_proto h ta pa call tobj pobj hta hproto hpa (by rw [hmeth]; rfl)
  have hnd2 : (tobj.props.map Prod.fst).Nodup := by
    simp only [ownKeys, hta] at hnd
    exact hnd
  have hnp2 : lookupProp tobj.props "prototype" = none := by
    simp only [ownDesc, hta] at hnp
    exact hnp
  obtain ⟨H, hcr, hHfa, hpres⟩ := create_class_result n h ta pa ca pp tobj pobj
    cobj cn c1 c2 c3 w1 e1 cf1 w2 e2 cf2 hta hproto hne hchain hpa hnoshadow
    hctor hca hcname hcproto hnd2 hnp2
  refine ⟨H, hcr, ?_, hpres⟩
  intro k d hkd
  have hkd2 : lookupProp tobj.props k = some d := by
    simp only [ownDesc, hta] at hkd
    exact hkd
  simp only [ownDesc, hHfa]
  exact lookupProp_applyDefs_mem tobj.props k d hnd2 hkd2 _

/-- Claim C1 (corrected): the entry check of `create` tests only that the call
tag is present on the target or its prototype chain (the `in` operator), not
that it resolves to a callable value: `create` raises the missing-capability
error exactly when the call tag is absent (first conjunct; see
`c1_counterexample` for a present-but-non-callable slot that is accepted).
For conforming targets of the two standard shapes — a plain object with
distinct own keys, no own `prototype` key, and a call slot holding a function
as a data property, and a class instance with its constructor and call method
on the prototype — `create` returns successfully and the result is invocable:
it carries the self-resolving forwarding body (second and third conjuncts).
An own `prototype` key would instead make the replication step throw, because
it collides with the fresh function's non-configurable own `prototype`. -/
theorem c1_entry_check :
    (∀ (fuel : Nat) (h : Heap) (ta : Nat),
      create fuel h ta = .error .missingCall ↔
        hasInChain (h.length + 1) h ta call = false) ∧
    (∀ (n : Nat) (h : Heap) (ta ga : Nat) (w e c nw ne2 nc : Bool) (nv : Value)
      (cc : FnCode),
      protoAt h ta = some (some objectProtoAddr) →
      ownDesc h ta call = some (.data (.obj ga) w e c) →
      codeAt h ga = some cc →
      ownDesc h ga "name" = some (.data nv nw ne2 nc) →
      (ownKeys h ta).Nodup →
      ownDesc h ta "prototype" = none →
      ∃ H, create (n + 2) h ta = .ok (H, h.length) ∧
        codeAt H h.length = some (.masquerade h.length)) ∧
    (∀ (n : Nat) (h : Heap) (ta pa ca pp ma : Nat)
      (c1 c2 c3 w1 e1 cf1 w2 e2 cf2 m1 m2 m3 : Bool) (cn : Value) (mc : FnCode),
      protoAt h ta = some (some pa) →
      pa ≠ objectProtoAddr →
      ownDesc h ta "constructor" = none →
      ownDesc h pa "constructor" = some (.data (.obj ca) c1 c2 c3) →
      ownDesc h ca "name" = some (.data cn w1 e1 cf1) →
      ownDesc h ca "prototype" = some (.data (.obj pp) w2 e2 cf2) →
      ownDesc h pa call = some (.data (.obj ma) m1 m2 m3) →
      codeAt h ma = some mc →
      (ownKeys h ta).Nodup →
      ownDesc h ta "prototype" = none →
      ∃ H, create (n + 3) h ta = .ok (H, h.length) ∧
        codeAt H h.length = some (.masquerade h.length)) := by
  refine ⟨create_missing_iff, ?_, ?_⟩
  · intro n h ta ga w e c nw ne2 nc nv cc hpr hcd hgc hgn hnd hnp
    obtain ⟨H, hcr, -, -⟩ := create_plain_copies n h ta ga w e c nw ne2 nc nv
      hpr hcd hgn hnd hnp
    exact ⟨H, hcr, (create_code _ _ _ _ _ hcr).2⟩
  · intro n h ta pa ca pp ma c1 c2 c3 w1 e1 cf1 w2 e2 cf2 m1 m2 m3 cn mc
      hpr hne hnosh hct hcn hcp hmth hmc hnd hnp
    obtain ⟨H, hcr, -, -⟩ := create_class_copies n h ta pa ca pp ma c1 c2 c3
      w1 e1 cf1 w2 e2 cf2 m1 m2 m3 cn hpr hne hnosh hct hcn hcp hmth hnd hnp
    exact ⟨H, hcr, (create_code _ _ _ _ _ hcr).2⟩

/-- Witness for C1: the target of `w10Heap` has no call tag anywhere, and
`create` throws the missing-capability error on it; the conforming plain target
of `w3Heap` and the conforming class instance of `w4Heap` are both accepted. -/
theorem c1_entry_check_witness :
    create 9 w10Heap 4 = .error .missingCall ∧
    exceptOk (create 9 w3Heap 4) = true ∧
    exceptOk (create 9 w4Heap 7) = true := by
  refine ⟨(c1_entry_check.1 9 w10Heap 4).mpr (by decide), ?_, ?_⟩
  · obtain ⟨H, hH, -⟩ := c1_entry_check.2.1 7 w3Heap 4 5 true true true
      false false true (.str "callme") (.thisOwn "value")
      (by decide) (by decide) (by decide) (by decide) (by decide) (by decide)
    show exceptOk (create (7 + 2) w3Heap 4) = true
    rw [hH]
    rfl
  · obtain ⟨H, hH, -⟩ := c1_entry_check.2.2 6 w4Heap 7 4 5 4 6
      true false true false false true false false false true false true
      (.str "Rect") (.ret (.num 99))
      (by decide) (by decide) (by decide) (by decide) (by decide) (by decide)
      (by decide) (by decide) (by decide) (by decide)
    show exceptOk (create (6 + 3) w4Heap 7) = true
    rw [hH]
    rfl

/-- Counterexample to C1: the target of `cx1Heap` binds the call tag to the
non-callable number 42, so it does not "resolve the call tag to a callable
value" — yet `create` returns successfully instead of throwing, because the
source's entry check (`call in target`, src/index.ts:37) tests only property
existence, never callability. -/
theorem c1_counterexample :
    specResolvesCall 9 cx1Heap 4 = false ∧
    exceptOk (create 9 cx1Heap 4) = true := by
  decide

/-- Claim C2 (corrected): a masquerade returned by `Invokable.create` carries
the self-resolving forwarding body (first conjunct), and invoking any object
whose code is that body re-resolves the call-tag property on the masquerade
itself in the heap at call time, then resolves `apply` on the resulting value;
PROVIDED that `apply` resolution yields the built-in `Function.prototype.apply`
(as it does for any ordinary function, which merely inherits it), the resolved
function is run with the masquerade as receiver (`this`), with the argument
list forwarded unchanged and its outcome returned unmodified (second
conjunct). Nothing is cached at construction time. When the resolved value
instead carries its own callable `apply`, that shadow runs in place of the
function itself: see `c2_counterexample`. -/
theorem c2_invocation :
    (∀ (fuel : Nat) (h : Heap) (ta : Nat) (h1 : Heap) (fa : Nat),
      create fuel h ta = .ok (h1, fa) →
      codeAt h1 fa = some (.masquerade fa)) ∧
    (∀ (m : Nat) (h2 h3 h4 : Heap) (fa ga aa : Nat) (args : List Value) (cc : FnCode),
      codeAt h2 fa = some (.masquerade fa) →
      getMember (m + 2) h2 (.obj fa) call = .ok (h3, .obj ga) →
      getMember (m + 2) h3 (.obj ga) "apply" = .ok (h4, .obj aa) →
      codeAt h4 aa = some .applyBuiltin →
      codeAt h4 ga = some cc →
      invoke (m + 4) h2 fa args = runFn m h4 cc (.obj fa) args) := by
  constructor
  · intro fuel h ta h1 fa hc
    exact (create_code fuel h ta h1 fa hc).2
  · intro m h2 h3 h4 fa ga aa args cc hm hres happ hab hg
    obtain ⟨o, ho, hoc⟩ := codeAt_unpack hm
    obtain ⟨ao, hao, haoc⟩ := codeAt_unpack hab
    obtain ⟨go, hgo, hgoc⟩ := codeAt_unpack hg
    exact invoke_resolved m h2 h3 h4 fa ga aa args o go ao cc ho hoc hres happ
      hao haoc hgo hgoc

/-- Witness for C2: the masquerade created from `w3Heap` carries the forwarding
body; in the receiver-binding scenario (masquerade's own `value` set to 7 while
the target still holds 3) the call-tag resolution yields the ordinary function
at address 5, its `apply` resolves to the built-in, and invocation returns 7 —
the masquerade was the receiver. -/
theorem c2_invocation_witness :
    codeAt (createdHeap 9 w3Heap 4) 6 = some (.masquerade 6) ∧
    invoke 9 c2Heap 6 [] = .ok (c2Heap, .num 7) := by
  constructor
  · exact c2_invocation.1 9 w3Heap 4 (createdHeap 9 w3Heap 4) 6 (by decide)
  · have hx := c2_invocation.2 5 c2Heap c2Heap c2Heap 6 5 3 [] (.thisOwn "value")
      (by decide) (by decide) (by decide) (by decide) (by decide)
    exact hx.trans (by decide)

/-- Counterexample to C2: the target of `c2SHeap` holds a call-tag function
(address 5, body returns 1) that carries an own callable `apply` property
(address 6, body returns 5). The claim says invocation runs the resolved
call-tag function and returns its result (1); but the source's forwarding body
is `f[call].apply(f, arguments)`, a member call of `apply` on the resolved
value, so the shadow runs instead and invocation returns 5. -/
theorem c2_counterexample :
    exceptOk (create 9 c2SHeap 4) = true ∧
    codeAt (createdHeap 9 c2SHeap 4) 5 = some (.ret (.num 1)) ∧
    ownDesc (createdHeap 9 c2SHeap 4) 7 call = some (.data (.obj 5) true true true) ∧
    Except.map (fun p => p.2) (invoke 20 (createdHeap 9 c2SHeap 4) 7 []) = .ok (.num 5) := by
  decide

/-- Claim C3 (corrected): after construction, replacing the call-tag property
reachable from the masquerade — either as its own property (first conjunct)
or, when its own slot is absent and resolution goes through the shared
prototype, on that prototype (second conjunct) — makes every subsequent
invocation run the replacement function `cc`, regardless of what function the
slot held before, PROVIDED the replacement's `apply` member resolves to the
built-in `Function.prototype.apply`. A replacement shadowing `apply` with its
own callable property runs the shadow instead: see `c3_counterexample`. -/
theorem c3_reresolution :
    (∀ (m : Nat) (h h4 : Heap) (fa ga aa : Nat) (args : List Value) (cc : FnCode)
      (w e c : Bool),
      codeAt h fa = some (.masquerade fa) →
      defineOwn h fa call (.data (.obj ga) w e c) = .ok h4 →
      codeAt h4 ga = some cc →
      getMember (m + 2) h4 (.obj ga) "apply" = .ok (h4, .obj aa) →
      codeAt h4 aa = some .applyBuiltin →
      invoke (m + 4) h4 fa args = runFn m h4 cc (.obj fa) args) ∧
    (∀ (m : Nat) (h h4 : Heap) (fa pa ga aa : Nat) (args : List Value) (cc : FnCode)
      (w e c : Bool),
      codeAt h fa = some (.masquerade fa) →
      protoAt h fa = some (some pa) →
      ownDesc h fa call = none →
      pa ≠ fa →
      (h[pa]?).isSome = true →
      defineOwn h pa call (.data (.obj ga) w e c) = .ok h4 →
      codeAt h4 ga = some cc →
      getMember (m + 3) h4 (.obj ga) "apply" = .ok (h4, .obj aa) →
      codeAt h4 aa = some .applyBuiltin →
      invoke (m + 5) h4 fa args = runFn (m + 1) h4 cc (.obj fa) args) := by
  constructor
  · intro m h h4 fa ga aa args cc w e c hm hdef hg happ hab
    obtain ⟨o, ho, hoc⟩ := codeAt_unpack hm
    have ho4 : h4[fa]? = some { o with props := setProp o.props call (.data (.obj ga) w e c) } :=
      defineOwn_ok_get_self hdef ho
    have hres : getMember (m + 2) h4 (.obj fa) call = .ok (h4, .obj ga) :=
      getMember_own_data m _ fa call _ (.obj ga) w e c ho4
        (lookupProp_setProp_self o.props call _)
    obtain ⟨ao, hao, haoc⟩ := codeAt_unpack hab
    obtain ⟨go4, hgo4, hgoc4⟩ := codeAt_unpack hg
    exact invoke_resolved m h4 h4 h4 fa ga aa args _ go4 ao cc ho4 hoc hres happ
      hao haoc hgo4 hgoc4
  · intro m h h4 fa pa ga aa args cc w e c hm hpr hod hne hpo hdef hg happ hab
    obtain ⟨o, ho, hoc⟩ := codeAt_unpack hm
    obtain ⟨o2, ho2, hp2⟩ := protoAt_unpack hpr
    cases heap_some_inj ho2 ho
    obtain ⟨po, hpob⟩ := Option.isSome_iff_exists.mp hpo
    have hlook : lookupProp o.props call = none := by
      rw [ownDesc, ho] at hod
      exact hod
    have ho4 : h4[fa]? = some o := by
      rw [defineOwn_ok_get_ne hdef fa (Ne.symm hne)]
      exact ho
    have hpa4 : h4[pa]? = some { po with props := setProp po.props call (.data (.obj ga) w e c) } :=
      defineOwn_ok_get_self hdef hpob
    have hres : getMember (m + 3) h4 (.obj fa) call = .ok (h4, .obj ga) :=
      getMember_proto_data m _ fa pa call o _ (.obj ga) w e c ho4 hlook hp2 hpa4
        (lookupProp_setProp_self po.props call _)
    obtain ⟨ao, hao, haoc⟩ := codeAt_unpack hab
    obtain ⟨go4, hgo4, hgoc4⟩ := codeAt_unpack hg
    exact invoke_resolved (m + 1) h4 h4 h4 fa ga aa args o go4 ao cc ho4 hoc
      hres happ hao haoc hgo4 hgoc4

/-- Witness for C3: the masquerade of `c3Heap` initially dispatches to the
function returning 1; after its own call slot is redirected to the ordinary
function at address 6, invocation returns 2. The masquerade of `w4Heap`
resolves through the shared prototype; after the prototype's call slot is
replaced by the class function (returning `undefined`), invocation returns
`undefined` instead of 99. -/
theorem c3_reresolution_witness :
    invoke 9 c3OwnHeap 7 [] = .ok (c3OwnHeap, .num 2) ∧
    invoke 9 c3ProtoHeap 8 [] = .ok (c3ProtoHeap, .undef) := by
  constructor
  · have hx := c3_reresolution.1 5 (createdHeap 9 c3Heap 4) c3OwnHeap 7 6 3 []
      (.ret (.num 2)) true true true (by decide) (by decide) (by decide)
      (by decide) (by decide)
    exact hx.trans (by decide)
  · have hx := c3_reresolution.2 4 (createdHeap 9 w4Heap 7) c3ProtoHeap 8 4 5 3 []
      (.ret .undef) true false true (by decide) (by decide) (by decide)
      (by decide) (by decide) (by decide) (by decide) (by decide) (by decide)
    exact hx.trans (by decide)

/-- Counterexample to C3: redirecting the masquerade's own call slot of
`c3SHeap` to the function at address 6 (body returns 2) does not make
invocation run that replacement: the replacement shadows `apply` with its own
function returning 5, and the member call `f[call].apply(f, arguments)` runs
the shadow — invocation yields 5, not the replacement's 2. -/
theorem c3_counterexample :
    codeAt c3SOwnHeap 6 = some (.ret (.num 2)) ∧
    ownDesc c3SOwnHeap 8 call = some (.data (.obj 6) true true true) ∧
    Except.map (fun p => p.2) (invoke 20 c3SOwnHeap 8 []) = .ok (.num 5) := by
  decide

/-- Claim C10 (corrected): when, at invocation time, the call-tag property no
longer resolves from the masquerade to a callable value, invoking the
masquerade raises a TypeError-kind error in the common cases: if the slot
resolves to `null`/`undefined` (e.g. after deletion everywhere along the
chain), the error is the member read of `apply` on nil (first conjunct); if
the resolved value's `apply` member is itself non-callable (as for any other
primitive replacement, whose `apply` reads as `undefined`), the error is the
not-callable TypeError (second conjunct). The claim's blanket statement is
false, however: a non-callable replacement carrying its own callable `apply`
makes invocation return that shadow's result with no error — see
`c10_counterexample`. -/
theorem c10_not_callable :
    (∀ (m : Nat) (h h1 : Heap) (fa : Nat) (args : List Value) (g : Value),
      codeAt h fa = some (.masquerade fa) →
      getMember (m + 1) h (.obj fa) call = .ok (h1, g) →
      (g = .null ∨ g = .undef) →
      invoke (m + 3) h fa args = .error (.getOfNil "apply")) ∧
    (∀ (m : Nat) (h h1 h2 : Heap) (fa : Nat) (args : List Value) (g ap : Value),
      codeAt h fa = some (.masquerade fa) →
      getMember (m + 1) h (.obj fa) call = .ok (h1, g) →
      getMember (m + 1) h1 g "apply" = .ok (h2, ap) →
      isCallableV h2 ap = false →
      invoke (m + 3) h fa args = .error .notCallable) := by
  constructor
  · intro m h h1 fa args g hm hres hnil
    obtain ⟨o, ho, hoc⟩ := codeAt_unpack hm
    exact invoke_unresolved_nil m h h1 fa args o g ho hoc hres hnil
  · intro m h h1 h2 fa args g ap hm hres happ hnc
    obtain ⟨o, ho, hoc⟩ := codeAt_unpack hm
    exact invoke_unresolved_apply m h h1 h2 fa args o g ap ho hoc hres happ hnc

/-- Witness for C10: deleting the copied call slot from `w3Heap`'s masquerade
(whose prototype chain carries no call tag) makes invocation throw the
apply-read-of-undefined TypeError; overwriting the slot with the number 42
makes it throw the not-callable TypeError. -/
theorem c10_not_callable_witness :
    invoke 9 c10Heap 6 [] = .error (.getOfNil "apply") ∧
    invoke 9 c10NumHeap 6 [] = .error .notCallable := by
  constructor
  · exact c10_not_callable.1 6 c10Heap c10Heap 6 [] .undef (by decide) (by decide)
      (Or.inr rfl)
  · exact c10_not_callable.2 6 c10NumHeap c10NumHeap c10NumHeap 6 [] (.num 42)
      .undef (by decide) (by decide) (by decide) (by decide)

/-- Counterexample to C10: in `c10SRepHeap` the masquerade's call slot has been
replaced by the plain (non-callable) object at address 6, which carries an own
callable `apply` property. The claim requires invocation to raise a TypeError;
instead the member call `f[call].apply(f, arguments)` runs the shadow and
invocation returns 5 — no error, and not a construction-time fallback. -/
theorem c10_counterexample :
    isCallableV c10SRepHeap (.obj 6) = false ∧
    ownDesc c10SRepHeap 8 call = some (.data (.obj 6) true true true) ∧
    Except.map (fun p => p.2) (invoke 20 c10SRepHeap 8 []) = .ok (.num 5) := by
  decide

/-- Claim C4 (corrected): for both target shapes — with distinct own keys and
no own `prototype` key — every own property of the target is installed on the
masquerade as an own property with the identical descriptor — same value and
same writable/enumerable/configurable flags for data properties, same
getter/setter references and flags for accessors (the quantification over
`d : PropDesc` covers all four descriptor shapes) — and, provided the
properties read by the default-name computation (`__call__` for plain targets,
`constructor` for class targets) are data properties, no getter of the target
is invoked during construction: every pre-existing object in the heap is left
exactly as it was. (When `__call__`/`constructor` is an accessor, construction
does invoke it: see `c4_counterexample`. An own `prototype` key makes the
replication step throw instead of replicating.) -/
theorem c4_replication :
    (∀ (n : Nat) (h : Heap) (ta ga : Nat) (w e c nw ne2 nc : Bool) (nv : Value),
      protoAt h ta = some (some objectProtoAddr) →
      ownDesc h ta call = some (.data (.obj ga) w e c) →
      ownDesc h ga "name" = some (.data nv nw ne2 nc) →
      (ownKeys h ta).Nodup →
      ownDesc h ta "prototype" = none →
      ∃ H, create (n + 2) h ta = .ok (H, h.length) ∧
        (∀ k d, ownDesc h ta k = some d → ownDesc H h.length k = some d) ∧
        (∀ a, a < h.length → H[a]? = h[a]?)) ∧
    (∀ (n : Nat) (h : Heap) (ta pa ca pp ma : Nat)
      (c1 c2 c3 w1 e1 cf1 w2 e2 cf2 m1 m2 m3 : Bool) (cn : Value),
      protoAt h ta = some (some pa) →
      pa ≠ objectProtoAddr →
      ownDesc h ta "constructor" = none →
      ownDesc h pa "constructor" = some (.data (.obj ca) c1 c2 c3) →
      ownDesc h ca "name" = some (.data cn w1 e1 cf1) →
      ownDesc h ca "prototype" = some (.data (.obj pp) w2 e2 cf2) →
      ownDesc h pa call = some (.data (.obj ma) m1 m2 m3) →
      (ownKeys h ta).Nodup →
      ownDesc h ta "prototype" = none →
      ∃ H, create (n + 3) h ta = .ok (H, h.length) ∧
        (∀ k d, ownDesc h ta k = some d → ownDesc H h.length k = some d) ∧
        (∀ a, a < h.length → H[a]? = h[a]?)) := by
  constructor
  · intro n h ta ga w e c nw ne2 nc nv hpr hcd hgn hnd hnp
    exact create_plain_copies n h ta ga w e c nw ne2 nc nv hpr hcd hgn hnd hnp
  · intro n h ta pa ca pp ma c1 c2 c3 w1 e1 cf1 w2 e2 cf2 m1 m2 m3 cn
      hpr hne hnosh hct hcn hcp hmth hnd hnp
    exact create_class_copies n h ta pa ca pp ma c1 c2 c3 w1 e1 cf1 w2 e2 cf2
      m1 m2 m3 cn hpr hne hnosh hct hcn hcp hmth hnd hnp

/-- Witness for C4: the masquerades of `w3Heap` and `w4Heap` carry their
targets' own descriptors verbatim, and construction leaves pre-existing
objects (here `Object.prototype` and the target itself) untouched. -/
theorem c4_replication_witness :
    ownDesc (createdHeap 9 w3Heap 4) 6 "value" = some (.data (.num 3) true true true) ∧
    (createdHeap 9 w3Heap 4)[0]? = w3Heap[0]? ∧
    ownDesc (createdHeap 9 w4Heap 7) 8 "w" = some (.data (.num 2) true true true) := by
  obtain ⟨H, hH, hcopy, hpres⟩ := c4_replication.1 7 w3Heap 4 5 true true true
    false false true (.str "callme")
    (by decide) (by decide) (by decide) (by decide) (by decide)
  have hH9 : create 9 w3Heap 4 = .ok (H, 6) := hH
  have hHH : createdHeap 9 w3Heap 4 = H := by
    simp only [createdHeap, hH9]
  obtain ⟨H2, hH2, hcopy2, -⟩ := c4_replication.2 6 w4Heap 7 4 5 4 6
    true false true false false true false false false true false true (.str "Rect")
    (by decide) (by decide) (by decide) (by decide) (by decide) (by decide)
    (by decide) (by decide) (by decide)
  have hH29 : create 9 w4Heap 7 = .ok (H2, 8) := hH2
  have hHH2 : createdHeap 9 w4Heap 7 = H2 := by
    simp only [createdHeap, hH29]
  refine ⟨?_, ?_, ?_⟩
  · rw [hHH]
    exact hcopy "value" _ (by decide)
  · rw [hHH]
    exact hpres 0 (by decide)
  · rw [hHH2]
    exact hcopy2 "w" _ (by decide)

/-- Counterexample to C4: constructing from the target of `cx4Heap`, whose
`__call__` own property is an accessor, invokes that getter during
construction — the pre-existing cell at address 4 observably changes from 0 to
1 — because the plain branch evaluates `target[call].name` (src/index.ts:63).
The claim asserts no getter of the target is invoked during construction. -/
theorem c4_counterexample :
    ownDesc cx4Heap 4 "n" = some (.data (.num 0) true true true) ∧
    exceptOk (create 9 cx4Heap 6) = true ∧
    ownDesc (createdHeap 9 cx4Heap 6) 4 "n" = some (.data (.num 1) true true true) := by
  decide

/-- Claim C5 (corrected): for a class-shaped target (distinct own keys, no own
`prototype` key), the masquerade's prototype is set to the `prototype`
property of the target's resolved `constructor` — which for a standard class
instance is exactly the target's own prototype reference (shared, not
copied), but in general need not be (see `c5_counterexample`); for a
plain-prototype target no prototype mutation occurs and the masquerade keeps
the default function prototype. -/
theorem c5_prototype :
    (∀ (n : Nat) (h : Heap) (ta pa ca pp ma : Nat)
      (c1 c2 c3 w1 e1 cf1 w2 e2 cf2 m1 m2 m3 : Bool) (cn : Value),
      protoAt h ta = some (some pa) →
      pa ≠ objectProtoAddr →
      ownDesc h ta "constructor" = none →
      ownDesc h pa "constructor" = some (.data (.obj ca) c1 c2 c3) →
      ownDesc h ca "name" = some (.data cn w1 e1 cf1) →
      ownDesc h ca "prototype" = some (.data (.obj pp) w2 e2 cf2) →
      ownDesc h pa call = some (.data (.obj ma) m1 m2 m3) →
      (ownKeys h ta).Nodup →
      ownDesc h ta "prototype" = none →
      ∃ H, create (n + 3) h ta = .ok (H, h.length) ∧
        protoAt H h.length = some (some pp)) ∧
    (∀ (n : Nat) (h : Heap) (ta ga : Nat) (w e c nw ne2 nc : Bool) (nv : Value),
      protoAt h ta = some (some objectProtoAddr) →
      ownDesc h ta call = some (.data (.obj ga) w e c) →
      ownDesc h ga "name" = some (.data nv nw ne2 nc) →
      (ownKeys h ta).Nodup →
      ownDesc h ta "prototype" = none →
      ∃ H, create (n + 2) h ta = .ok (H, h.length) ∧
        protoAt H h.length = some (some functionProtoAddr)) := by
  constructor
  · intro n h ta pa ca pp ma c1 c2 c3 w1 e1 cf1 w2 e2 cf2 m1 m2 m3 cn
      hpr hne hnosh hct hcn hcp hmth hnd hnp
    obtain ⟨tobj, hta, hproto⟩ := protoAt_unpack hpr
    obtain ⟨pobj, hpa, hctor⟩ := ownDesc_unpack hct
    obtain ⟨cobj, hca, hcname⟩ := ownDesc_unpack hcn
    obtain ⟨cobj2, hca2, hcproto⟩ := ownDesc_unpack hcp
    cases heap_some_inj hca2 hca
    obtain ⟨pobj2, hpa2, hmeth⟩ := ownDesc_unpack hmth
    cases heap_some_inj hpa2 hpa
    have hnoshadow : lookupProp tobj.props "constructor" = none := by
      simp only [ownDesc, hta] at hnosh
      exact hnosh
    have hchain : hasInChain (h.length + 1) h ta call = true :=
      hasInChain_via_proto h ta pa call tobj pobj hta hproto hpa (by rw [hmeth]; rfl)
    have hnd2 : (tobj.props.map Prod.fst).Nodup := by
      simp only [ownKeys, hta] at hnd
      exact hnd
    have hnp2 : lookupProp tobj.props "prototype" = none := by
      simp only [ownDesc, hta] at hnp
      exact hnp
    obtain ⟨H, hcr, hHfa, -⟩ := create_class_result n h ta pa ca pp tobj pobj
      cobj cn c1 c2 c3 w1 e1 cf1 w2 e2 cf2 hta hproto hne hchain hpa hnoshadow
      hctor hca hcname hcproto hnd2 hnp2
    refine ⟨H, hcr, ?_⟩
    simp only [protoAt, hHfa]
    rfl
  · intro n h ta ga w e c nw ne2 nc nv hpr hcd hgn hnd hnp
    obtain ⟨tobj, hta, hproto⟩ := protoAt_unpack hpr
    obtain ⟨tobj2, hta2, hcall⟩ := ownDesc_unpack hcd
    cases heap_some_inj hta2 hta
    obtain ⟨go, hga, hgname⟩ := ownDesc_unpack hgn
    have hga1 : (h ++ [freshFn h.length, freshFnProto h.length])[ga]? = some go := by
      rw [append2_get_left h _ _ ga (heap_lt_of_getElem h ga go hga)]
      exact hga
    have hnd2 : (tobj.props.map Prod.fst).Nodup := by
      simp only [ownKeys, hta] at hnd
      exact hnd
    have hnp2 : lookupProp tobj.props "prototype" = none := by
      simp only [ownDesc, hta] at hnp
      exact hnp
    obtain ⟨H, hn, hcr, hHfa, -, -⟩ := create_plain_result n h ta tobj
      (.obj ga) nv w e c hta hproto hcall
      (getMember_own_data n _ ga "name" go nv nw ne2 nc hga1 hgname) hnd2 hnp2
    refine ⟨H, hcr, ?_⟩
    simp only [protoAt, hHfa]
    rfl

/-- Witness for C5: the masquerade of the class instance in `w4Heap` shares the
prototype at address 4 (equal to the instance's own prototype, since the class
layout is standard); the masquerade of the plain target in `w3Heap` keeps the
default `Function.prototype`. -/
theorem c5_prototype_witness :
    protoAt (createdHeap 9 w4Heap 7) 8 = some (some 4) ∧
    protoAt (createdHeap 9 w3Heap 4) 6 = some (some functionProtoAddr) := by
  obtain ⟨H, hH, hp⟩ := c5_prototype.1 6 w4Heap 7 4 5 4 6
    true false true false false true false false false true false true (.str "Rect")
    (by decide) (by decide) (by decide) (by decide) (by decide) (by decide)
    (by decide) (by decide) (by decide)
  have hH9 : create 9 w4Heap 7 = .ok (H, 8) := hH
  have hHH : createdHeap 9 w4Heap 7 = H := by
    simp only [createdHeap, hH9]
  obtain ⟨H2, hH2, hp2⟩ := c5_prototype.2 7 w3Heap 4 5 true true true
    false false true (.str "callme")
    (by decide) (by decide) (by decide) (by decide) (by decide)
  have hH29 : create 9 w3Heap 4 = .ok (H2, 6) := hH2
  have hHH2 : createdHeap 9 w3Heap 4 = H2 := by
    simp only [createdHeap, hH29]
  exact ⟨hHH ▸ hp, hHH2 ▸ hp2⟩

/-- Counterexample to C5: the target of `cx5Heap` (address 5) has the
non-root prototype at address 4, so the claim requires the masquerade's
prototype to be exactly that reference; but `create` sets the masquerade's
prototype to `constructor.prototype` (src/index.ts:101), which resolves here
to `Object.prototype` (address 0). -/
theorem c5_counterexample :
    exceptOk (create 9 cx5Heap 5) = true ∧
    protoAt cx5Heap 5 = some (some 4) ∧
    protoAt (createdHeap 9 cx5Heap 5) (createdAddr 9 cx5Heap 5) = some (some 0) ∧
    ¬ protoAt (createdHeap 9 cx5Heap 5) (createdAddr 9 cx5Heap 5) = protoAt cx5Heap 5 := by
  decide

/-- Claim C6 (corrected): when the target (distinct own keys, no own
`prototype` key) declares an own `name` property, the masquerade's own `name`
is the target's exact own descriptor — the descriptor-replication step runs
after the intermediate `name` define and overwrites it wholesale. When that
own descriptor is an ordinary data property with default flags
(writable/enumerable/configurable all `true`, as for any object-literal or
assignment-created property), the claim's statement holds: the masquerade's
`name` is enumerable, writable, configurable and holds the target's value.
For non-default flags the claim fails (`c6_counterexample`). -/
theorem c6_name_descriptor :
    (∀ (n : Nat) (h : Heap) (ta ga : Nat) (w e c nw ne2 nc : Bool) (nv : Value)
      (nd : PropDesc),
      protoAt h ta = some (some objectProtoAddr) →
      ownDesc h ta call = some (.data (.obj ga) w e c) →
      ownDesc h ga "name" = some (.data nv nw ne2 nc) →
      (ownKeys h ta).Nodup →
      ownDesc h ta "prototype" = none →
      ownDesc h ta "name" = some nd →
      ∃ H, create (n + 2) h ta = .ok (H, h.length) ∧
        ownDesc H h.length "name" = some nd) ∧
    (∀ (n : Nat) (h : Heap) (ta pa ca pp ma : Nat)
      (c1 c2 c3 w1 e1 cf1 w2 e2 cf2 m1 m2 m3 : Bool) (cn : Value) (nd : PropDesc),
      protoAt h ta = some (some pa) →
      pa ≠ objectProtoAddr →
      ownDesc h ta "constructor" = none →
      ownDesc h pa "constructor" = some (.data (.obj ca) c1 c2 c3) →
      ownDesc h ca "name" = some (.data cn w1 e1 cf1) →
      ownDesc h ca "prototype" = some (.data (.obj pp) w2 e2 cf2) →
      ownDesc h pa call = some (.data (.obj ma) m1 m2 m3) →
      (ownKeys h ta).Nodup →
      ownDesc h ta "prototype" = none →
      ownDesc h ta "name" = some nd →
      ∃ H, create (n + 3) h ta = .ok (H, h.length) ∧
        ownDesc H h.length "name" = some nd) := by
  constructor
  · intro n h ta ga w e c nw ne2 nc nv nd hpr hcd hgn hnd hnp hown
    obtain ⟨H, hcr, hcopy, -⟩ := create_plain_copies n h ta ga w e c nw ne2 nc
      nv hpr hcd hgn hnd hnp
    exact ⟨H, hcr, hcopy "name" nd hown⟩
  · intro n h ta pa ca pp ma c1 c2 c3 w1 e1 cf1 w2 e2 cf2 m1 m2 m3 cn nd
      hpr hne hnosh hct hcn hcp hmth hnd hnp hown
    obtain ⟨H, hcr, hcopy, -⟩ := create_class_copies n h ta pa ca pp ma
      c1 c2 c3 w1 e1 cf1 w2 e2 cf2 m1 m2 m3 cn hpr hne hnosh hct hcn hcp hmth
      hnd hnp
    exact ⟨H, hcr, hcopy "name" nd hown⟩

/-- Witness for C6: the plain target of `w6Heap` declares `name: "mine"` with
default flags, and the masquerade's own `name` is that exact descriptor
(enumerable, writable, configurable, value preserved — the claim's statement
in its ordinary case); the class instance of `w6cHeap` declares a
non-enumerable, non-configurable own `name`, and the masquerade carries that
exact descriptor as well. -/
theorem c6_name_descriptor_witness :
    ownDesc (createdHeap 9 w6Heap 4) 6 "name" = some (.data (.str "mine") true true true) ∧
    ownDesc (createdHeap 9 w6cHeap 7) 8 "name" = some (.data (.str "inst") true false false) := by
  obtain ⟨H, hH, hn⟩ := c6_name_descriptor.1 7 w6Heap 4 5 true true true
    false false true (.str "cf") (.data (.str "mine") true true true)
    (by decide) (by decide) (by decide) (by decide) (by decide) (by decide)
  have hH9 : create 9 w6Heap 4 = .ok (H, 6) := hH
  have hHH : createdHeap 9 w6Heap 4 = H := by
    simp only [createdHeap, hH9]
  obtain ⟨H2, hH2, hn2⟩ := c6_name_descriptor.2 6 w6cHeap 7 4 5 4 6
    true false true false false true false false false true false true (.str "Rect")
    (.data (.str "inst") true false false)
    (by decide) (by decide) (by decide) (by decide) (by decide) (by decide)
    (by decide) (by decide) (by decide) (by decide)
  have hH29 : create 9 w6cHeap 7 = .ok (H2, 8) := hH2
  have hHH2 : createdHeap 9 w6cHeap 7 = H2 := by
    simp only [createdHeap, hH29]
  exact ⟨hHH ▸ hn, hHH2 ▸ hn2⟩

/-- Counterexample to C6: the target of `cx6Heap` declares an own `name` data
property with writable, enumerable and configurable all `false`; the claim says
the masquerade's `name` must be enumerable, writable and configurable, but the
descriptor-replication step (src/index.ts:70) runs after the `name` define and
installs the target's exact descriptor, so all three flags are `false`. -/
theorem c6_counterexample :
    ownDesc cx6Heap 4 "name" = some (.data (.str "x") false false false) ∧
    exceptOk (create 9 cx6Heap 4) = true ∧
    ownDesc (createdHeap 9 cx6Heap 4) (createdAddr 9 cx6Heap 4) "name"
      = some (.data (.str "x") false false false) := by
  decide

/-- Claim C7 (confirmed): when the target (distinct own keys, no own
`prototype` key) declares no own `name` property, the masquerade's own `name`
attribute is non-writable and non-enumerable (and configurable), initialized
to the call-tag function's own `name` value for a plain-prototype target
(where the `in`-resolution for `name` over the chain also finds nothing), and
to the resolved constructor's `name` value — the class's name — for a
class-instance target. -/
theorem c7_default_name :
    (∀ (n : Nat) (h : Heap) (ta ga : Nat) (w e c nw ne2 nc : Bool) (nv : Value),
      protoAt h ta = some (some objectProtoAddr) →
      ownDesc h ta call = some (.data (.obj ga) w e c) →
      ownDesc h ga "name" = some (.data nv nw ne2 nc) →
      ownDesc h ta "name" = none →
      hasInChain ((h ++ [freshFn h.length, freshFnProto h.length]).length + 1)
        (h ++ [freshFn h.length, freshFnProto h.length]) ta "name" = false →
      (ownKeys h ta).Nodup →
      ownDesc h ta "prototype" = none →
      ∃ H, create (n + 2) h ta = .ok (H, h.length) ∧
        ownDesc H h.length "name" = some (.data nv false false true)) ∧
    (∀ (n : Nat) (h : Heap) (ta pa ca pp ma : Nat)
      (c1 c2 c3 w1 e1 cf1 w2 e2 cf2 m1 m2 m3 : Bool) (cn : Value),
      protoAt h ta = some (some pa) →
      pa ≠ objectProtoAddr →
      ownDesc h ta "constructor" = none →
      ownDesc h pa "constructor" = some (.data (.obj ca) c1 c2 c3) →
      ownDesc h ca "name" = some (.data cn w1 e1 cf1) →
      ownDesc h ca "prototype" = some (.data (.obj pp) w2 e2 cf2) →
      ownDesc h pa call = some (.data (.obj ma) m1 m2 m3) →
      ownDesc h ta "name" = none →
      (ownKeys h ta).Nodup →
      ownDesc h ta "prototype" = none →
      ∃ H, create (n + 3) h ta = .ok (H, h.length) ∧
        ownDesc H h.length "name" = some (.data cn false false true)) := by
  constructor
  · intro n h ta ga w e c nw ne2 nc nv hpr hcd hgn hno hfalse hnd hnp
    obtain ⟨tobj, hta, hproto⟩ := protoAt_unpack hpr
    obtain ⟨tobj2, hta2, hcall⟩ := ownDesc_unpack hcd
    cases heap_some_inj hta2 hta
    obtain ⟨go, hga, hgname⟩ := ownDesc_unpack hgn
    have hga1 : (h ++ [freshFn h.length, freshFnProto h.length])[ga]? = some go := by
      rw [append2_get_left h _ _ ga (heap_lt_of_getElem h ga go hga)]
      exact hga
    have hno2 : lookupProp tobj.props "name" = none := by
      simp only [ownDesc, hta] at hno
      exact hno
    have hnd2 : (tobj.props.map Prod.fst).Nodup := by
      simp only [ownKeys, hta] at hnd
      exact hnd
    have hnp2 : lookupProp tobj.props "prototype" = none := by
      simp only [ownDesc, hta] at hnp
      exact hnp
    obtain ⟨H, hn, hcr, hHfa, heq, -⟩ := create_plain_result n h ta tobj
      (.obj ga) nv w e c hta hproto hcall
      (getMember_own_data n _ ga "name" go nv nw ne2 nc hga1 hgname) hnd2 hnp2
    have hnf : hn = false := heq.symm.trans hfalse
    subst hnf
    refine ⟨H, hcr, ?_⟩
    simp only [ownDesc, hHfa]
    rw [lookupProp_applyDefs_not_mem _ _ _ (not_mem_of_lookupProp_none _ _ hno2),
      lookupProp_setProp_self]
  · intro n h ta pa ca pp ma c1 c2 c3 w1 e1 cf1 w2 e2 cf2 m1 m2 m3 cn
      hpr hne hnosh hct hcn hcp hmth hno hnd hnp
    obtain ⟨tobj, hta, hproto⟩ := protoAt_unpack hpr
    obtain ⟨pobj, hpa, hctor⟩ := ownDesc_unpack hct
    obtain ⟨cobj, hca, hcname⟩ := ownDesc_unpack hcn
    obtain ⟨cobj2, hca2, hcproto⟩ := ownDesc_unpack hcp
    cases heap_some_inj hca2 hca
    obtain ⟨pobj2, hpa2, hmeth⟩ := ownDesc_unpack hmth
    cases heap_some_inj hpa2 hpa
    have hnoshadow : lookupProp tobj.props "constructor" = none := by
      simp only [ownDesc, hta] at hnosh
      exact hnosh
    have hno2 : lookupProp tobj.props "name" = none := by
      simp only [ownDesc, hta] at hno
      exact hno
    have hchain : hasInChain (h.length + 1) h ta call = true :=
      hasInChain_via_proto h ta pa call tobj pobj hta hproto hpa (by rw [hmeth]; rfl)
    have hnd2 : (tobj.props.map Prod.fst).Nodup := by
      simp only [ownKeys, hta] at hnd
      exact hnd
    have hnp2 : lookupProp tobj.props "prototype" = none := by
      simp only [ownDesc, hta] at hnp
      exact hnp
    obtain ⟨H, hcr, hHfa, -⟩ := create_class_result n h ta pa ca pp tobj pobj
      cobj cn c1 c2 c3 w1 e1 cf1 w2 e2 cf2 hta hproto hne hchain hpa hnoshadow
      hctor hca hcname hcproto hnd2 hnp2
    simp only [hno2, Option.isSome_none] at hHfa
    refine ⟨H, hcr, ?_⟩
    simp only [ownDesc, hHfa]
    rw [lookupProp_applyDefs_not_mem _ _ _ (not_mem_of_lookupProp_none _ _ hno2),
      lookupProp_setProp_self]

/-- Witness for C7: neither `w3Heap`'s plain target nor `w4Heap`'s class
instance declares an own `name`; the plain masquerade's `name` defaults to the
call-tag function's name `callme`, the class masquerade's to the class name
`Rect`, both non-writable, non-enumerable and configurable. -/
theorem c7_default_name_witness :
    ownDesc (createdHeap 9 w3Heap 4) 6 "name" = some (.data (.str "callme") false false true) ∧
    ownDesc (createdHeap 9 w4Heap 7) 8 "name" = some (.data (.str "Rect") false false true) := by
  obtain ⟨H, hH, hn⟩ := c7_default_name.1 7 w3Heap 4 5 true true true
    false false true (.str "callme")
    (by decide) (by decide) (by decide) (by decide) (by decide) (by decide)
    (by decide)
  have hH9 : create 9 w3Heap 4 = .ok (H, 6) := hH
  have hHH : createdHeap 9 w3Heap 4 = H := by
    simp only [createdHeap, hH9]
  obtain ⟨H2, hH2, hn2⟩ := c7_default_name.2 6 w4Heap 7 4 5 4 6
    true false true false false true false false false true false true (.str "Rect")
    (by decide) (by decide) (by decide) (by decide) (by decide) (by decide)
    (by decide) (by decide) (by decide) (by decide)
  have hH29 : create 9 w4Heap 7 = .ok (H2, 8) := hH2
  have hHH2 : createdHeap 9 w4Heap 7 = H2 := by
    simp only [createdHeap, hH29]
  exact ⟨hHH ▸ hn, hHH2 ▸ hn2⟩

/-- Claim C9 (corrected): for a plain target with distinct own keys, no own
`prototype` key, a data-property call slot — so that construction invokes no
target getter (a self-mutating `__call__` getter refutes the unconditional
claim, see `c9_counterexample`) — and whose call-slot function carries its
`name` as a data property (an accessor `name` would run during the
default-name read and can also mutate the target), `create` leaves the target
record exactly as it was, the masquerade is a fresh object with an address
distinct from the target's, and mutating the target's own data properties
after construction leaves the masquerade's own-property snapshot untouched
(the call slot excepted, being re-resolved at each invocation: see the
re-resolution theorems of C2/C3). -/
theorem c9_target_independence :
    ∀ (n : Nat) (h : Heap) (ta ga : Nat) (w e c nw ne2 nc : Bool) (nv : Value),
      protoAt h ta = some (some objectProtoAddr) →
      ownDesc h ta call = some (.data (.obj ga) w e c) →
      ownDesc h ga "name" = some (.data nv nw ne2 nc) →
      (ownKeys h ta).Nodup →
      ownDesc h ta "prototype" = none →
      ∃ H, create (n + 2) h ta = .ok (H, h.length) ∧
        H[ta]? = h[ta]? ∧
        h.length ≠ ta ∧
        (∀ k d h4, defineOwn H ta k d = .ok h4 → h4[h.length]? = H[h.length]?) := by
  intro n h ta ga w e c nw ne2 nc nv hpr hcd hgn hnd hnp
  obtain ⟨tobj, hta, hproto⟩ := protoAt_unpack hpr
  have hlt := heap_lt_of_getElem h ta tobj hta
  obtain ⟨H, hcr, hcopy, hpres⟩ := create_plain_copies n h ta ga w e c nw ne2 nc
    nv hpr hcd hgn hnd hnp
  refine ⟨H, hcr, hpres ta hlt, Ne.symm (Nat.ne_of_lt hlt), ?_⟩
  intro k d h4 hdq
  exact defineOwn_ok_get_ne hdq h.length (Ne.symm (Nat.ne_of_lt hlt))

/-- Witness for C9: constructing from `w3Heap` leaves the target record at
address 4 unchanged, and overwriting the target's `value` afterwards does not
alter the masquerade's record at address 6. -/
theorem c9_target_independence_witness :
    (createdHeap 9 w3Heap 4)[4]? = w3Heap[4]? ∧
    (definedHeap (createdHeap 9 w3Heap 4) 4 "value" (.data (.num 99) true true true))[6]?
      = (createdHeap 9 w3Heap 4)[6]? := by
  obtain ⟨H, hH, htgt, hne, hsnap⟩ := c9_target_independence 7 w3Heap 4 5
    true true true false false true (.str "callme")
    (by decide) (by decide) (by decide) (by decide) (by decide)
  have hH9 : create 9 w3Heap 4 = .ok (H, 6) := hH
  have hHH : createdHeap 9 w3Heap 4 = H := by
    simp only [createdHeap, hH9]
  have hdq : defineOwn (createdHeap 9 w3Heap 4) 4 "value" (.data (.num 99) true true true)
      = .ok (definedHeap (createdHeap 9 w3Heap 4) 4 "value" (.data (.num 99) true true true)) := by
    decide
  rw [hHH] at hdq
  rw [hHH]
  exact ⟨htgt, hsnap "value" (.data (.num 99) true true true) _ hdq⟩

/-- Counterexample to C9: the target of `cx9Heap` (address 5) has a `__call__`
getter that increments the target's own property `n`; construction invokes
that getter, so `create` does modify the target: its `n` goes from 0 to 1.
Moreover in `cx9bHeap` the call slot IS a data property, but the call-slot
function's `name` has been redefined as an accessor whose getter writes the
target's property `z`: the default-name read `target[call].name` runs it, and
after construction the target carries `z = 1` — hence the data-`name` proviso
in the corrected claim. -/
theorem c9_counterexample :
    ownDesc cx9Heap 5 "n" = some (.data (.num 0) true true true) ∧
    exceptOk (create 9 cx9Heap 5) = true ∧
    ownDesc (createdHeap 9 cx9Heap 5) 5 "n" = some (.data (.num 1) true true true) ∧
    ownDesc cx9bHeap 4 call = some (.data (.obj 5) true true true) ∧
    ownDesc cx9bHeap 4 "z" = none ∧
    exceptOk (create 9 cx9bHeap 4) = true ∧
    ownDesc (createdHeap 9 cx9bHeap 4) 4 "z" = some (.data (.num 1) true true true) := by
  decide

end Invokable
